import Mathlib

/-
Verification development for the csvdiff reconciliation engine
(src/csvdiff.go). The Go program is shallowly embedded: rows are lists of
byte-strings, the two pending-match caches are association lists from the
64-bit FNV-1a key hash to a row, and the streaming main loop is a step
function threaded through the two input lists in lockstep. Machine
integers are modelled as Nat with explicit reduction mod 2^64 where the Go
code relies on uint64 wrap-around (atouis, message formatting), and the
Go int conversion applied to uint64 values is modelled by uint64ToInt.
Fatal log.Fatalf aborts are modelled with Except String.
-/

/- Helper lemmas about the pending-match cache. -/

/- areEquals on two identical rows reports equality and leaves the
modified-field vector untouched. -/

/- Analysis of areEquals: the same flag is monotone along the first loop,
and a true verdict means the loop never changed the state. -/

/- The modified-field vector stays absent through areEquals when it was
absent (while the first flag is still set in the main loop). -/

/- Characterization of the aligned branch. -/

/- The misaligned probes never touch the first flag, the header row, the
added/removed counters, or (when absent) the modified-field vector. -/

/- Tracking of marked positions in the modified-field vector. -/

/- Ignored positions are never marked. -/

set_option maxHeartbeats 1000000

namespace Csvdiff

/-- A field is a byte string: a list of byte values. -/
abbrev Field := List Nat

/-- A row is an ordered list of fields (Go type Row = [][]byte). -/
abbrev Row := List Field

/-- The configuration consumed by the core (Go struct Config). keys holds
the 0-based key indexes as uint64 values (after the atouis conversion,
which wraps a user-supplied 0 around to 2^64 - 1); ignoredFields holds the
map keys of the Go map, which are ints obtained from the uint64 values. -/
structure Config where
  keys : List Nat
  ignoredFields : List Int
  noHeader : Bool
  format : Nat
  symbol : Nat
  common : Bool
deriving DecidableEq, Repr

/-- Go conversion int(v) of a uint64 value v on a 64-bit platform:
two's-complement reinterpretation. -/
def uint64ToInt (v : Nat) : Int :=
  if v < 2 ^ 63 then (v : Int) else (v : Int) - 2 ^ 64

/-- Go atouis: each parsed 1-based index f becomes f - 1 in uint64
arithmetic, so 0 wraps around to 2^64 - 1 (src/csvdiff.go lines 45-57). -/
def atouis (values : List Nat) : List Nat :=
  values.map (fun v => (v + (2 ^ 64 - 1)) % 2 ^ 64)

/-- The ignored-field set as built by parseArgs: the atouis values cast to
int by the Go conversion (src/csvdiff.go lines 100-105). -/
def toIgnoredFields (values : List Nat) : List Int :=
  (atouis values).map uint64ToInt

/-- Condition under which checkRow flags a key index k:
int(k) >= len(rowA) or int(k) >= len(rowB) (src/csvdiff.go line 125). -/
def keyOutOfRange (rowA rowB : Row) (k : Nat) : Bool :=
  decide ((rowA.length : Int) ≤ uint64ToInt k) || decide ((rowB.length : Int) ≤ uint64ToInt k)

/-- Condition under which checkRow flags an ignored-field index f
(src/csvdiff.go line 130). -/
def ignOutOfRange (rowA rowB : Row) (f : Int) : Bool :=
  decide ((rowA.length : Int) ≤ f) || decide ((rowB.length : Int) ≤ f)

/-- Go checkRow (src/csvdiff.go lines 123-134): key indexes are checked in
order, then the ignored-field indexes; the first offender aborts with a
message carrying the 1-based index (key+1 printed in uint64 arithmetic). -/
def checkRow (rowA rowB : Row) (cfg : Config) : Except String Unit :=
  match cfg.keys.find? (keyOutOfRange rowA rowB) with
  | some k => Except.error ("Key index " ++ toString ((k + 1) % 2 ^ 64) ++ " out of range")
  | none =>
    match cfg.ignoredFields.find? (ignOutOfRange rowA rowB) with
    | some f => Except.error ("Ignored field " ++ toString (f + 1) ++ " out of range")
    | none => Except.ok ()

/-- One byte of the FNV-1a 64-bit digest: xor then multiply by the FNV
prime, in uint64 arithmetic. -/
def fnv64Step (h b : Nat) : Nat :=
  (Nat.xor h (b % 256)) * 1099511628211 % 2 ^ 64

/-- FNV-1a 64-bit digest of a byte sequence (hash/fnv New64a). -/
def fnv64 (bs : List Nat) : Nat :=
  bs.foldl fnv64Step 14695981039346656037

/-- Go hashRow (src/csvdiff.go lines 136-142): the hasher is reset, then
fed the key fields in key order, which digests their concatenation. -/
def hashRow (keys : List Nat) (row : Row) : Nat :=
  fnv64 ((keys.map (fun k => row.getD k [])).flatten)

/-- Go update (src/csvdiff.go lines 197-201): mark position i in the
modified-field vector when the vector exists and i is in range. -/
def update (modifiedFields : Option (List Bool)) (i : Nat) : Option (List Bool) :=
  match modifiedFields with
  | none => none
  | some l => if i < l.length then some (l.set i true) else some l

/-- Go concat (src/csvdiff.go lines 203-219): the two-value encoding of a
changed field. Format 1 joins with symbol,45,symbol; format 2 joins with a
newline byte; otherwise the ANSI bold encoding. -/
def concat (valueA valueB : Field) (format : Nat) (symbol : Nat) : Field :=
  if format = 1 then valueA ++ [symbol, 45, symbol] ++ valueB
  else if format = 2 then valueA ++ [10] ++ valueB
  else [27, 91, 49, 109] ++ valueA ++ [27, 91, 48, 109] ++ [symbol] ++
    [27, 91, 49, 109] ++ valueB ++ [27, 91, 48, 109]

/-- Membership test of a (nonnegative) position in the ignored-field set,
as areEquals performs it with an int key. -/
def ignoredContains (cfg : Config) (i : Nat) : Bool :=
  cfg.ignoredFields.contains (Int.ofNat i)

/-- The copy(rowDelta[1:], rowA[0:i]) step of areEquals: positions 1..i of
the delta receive the first i fields of rowA. -/
def copyFront (rd : List Field) (rowA : Row) (i : Nat) : List Field :=
  (List.range i).foldl (fun acc j => acc.set (j + 1) (rowA.getD j [])) rd

/-- Result of areEquals: the delta row (empty list standing for the Go nil
when no delta was allocated), the equality verdict, and the
modified-field vector after in-place mutation. -/
structure AEResult where
  rowDelta : List Field
  same : Bool
  mf : Option (List Bool)
deriving DecidableEq, Repr

/-- Body of the first areEquals loop (src/csvdiff.go lines 166-181) at
position i, acting on the state (same, rowDelta, modifiedFields). -/
def aeStep1 (rowA rowB : Row) (cfg : Config) (maxLen : Nat)
    (st : Bool × List Field × Option (List Bool)) (i : Nat) :
    Bool × List Field × Option (List Bool) :=
  if !ignoredContains cfg i && !(rowA.getD i [] == rowB.getD i []) then
    let rd0 := if st.1 then copyFront ((List.replicate (maxLen + 1) ([] : Field)).set 0 [35]) rowA i else st.2.1
    (false, rd0.set (i + 1) (concat (rowA.getD i []) (rowB.getD i []) cfg.format cfg.symbol),
      update st.2.2 i)
  else if !st.1 then
    (false, st.2.1.set (i + 1) (rowA.getD i []), st.2.2)
  else st

/-- Body of the second areEquals loop (src/csvdiff.go lines 182-193) at
position i: the ragged tail, compared against the placeholder byte 95. -/
def aeStep2 (rowA rowB : Row) (cfg : Config) (longest : Nat)
    (st : List Field × Option (List Bool)) (i : Nat) :
    List Field × Option (List Bool) :=
  if ignoredContains cfg i then st
  else if longest = 1 then
    (st.1.set (i + 1) (concat (rowA.getD i []) [95] cfg.format cfg.symbol), update st.2 i)
  else if longest = 2 then
    (st.1.set (i + 1) (concat [95] (rowB.getD i []) cfg.format cfg.symbol), update st.2 i)
  else st

/-- Go areEquals (src/csvdiff.go lines 146-195). -/
def areEquals (rowA rowB : Row) (cfg : Config) (modifiedFields : Option (List Bool)) : AEResult :=
  let lenA := rowA.length
  let lenB := rowB.length
  let maxLen := max lenA lenB
  let minLen := min lenA lenB
  let longest : Nat := if lenA > lenB then 1 else if lenB > lenA then 2 else 0
  let same0 := lenA == lenB
  let rd0 : List Field :=
    if same0 then [] else (List.replicate (maxLen + 1) ([] : Field)).set 0 [35]
  let st1 := (List.range minLen).foldl (aeStep1 rowA rowB cfg maxLen) (same0, rd0, modifiedFields)
  let st2 := ((List.range (maxLen - minLen)).map (fun j => j + minLen)).foldl
    (aeStep2 rowA rowB cfg longest) (st1.2.1, st1.2.2)
  { rowDelta := st2.1, same := st1.1, mf := st2.2 }

/-- Go delta (src/csvdiff.go lines 221-226): prepend the sign byte. -/
def delta (row : Row) (sign : Nat) : Row :=
  [sign] :: row

/-- Go deepCopy (src/csvdiff.go lines 434-441). -/
def deepCopy (row : Row) : Row :=
  row.map (fun field => field.map (fun b => b))

/-- Lookup in a pending-match cache (Go map access cache[key]). -/
def cacheLookup : List (Nat × Row) → Nat → Option Row
  | [], _ => none
  | p :: ps, h => if p.1 = h then some p.2 else cacheLookup ps h

/-- Deletion from a pending-match cache (Go delete(cache, key)). -/
def cacheErase (c : List (Nat × Row)) (h : Nat) : List (Nat × Row) :=
  c.filter (fun p => !(p.1 == h))

/-- Insertion into a pending-match cache (Go cache[key] = row): the new
binding replaces any previous binding of the same hash. -/
def cacheInsert (c : List (Nat × Row)) (h : Nat) (row : Row) : List (Nat × Row) :=
  cacheErase c h ++ [(h, row)]

/-- Go searchCache (src/csvdiff.go lines 228-235): remove and return the
entry when present; the returned hash is the key when found, 0 otherwise. -/
def searchCache (c : List (Nat × Row)) (key : Nat) : Option Row × List (Nat × Row) × Nat :=
  match cacheLookup c key with
  | some row => (some row, cacheErase c key, key)
  | none => (none, c, 0)

/-- The mutable state of the main loop: the two caches, the delta rows
written so far, the per-side duplicate-key warning counts (stderr
diagnostics), the four counters, the first flag, the captured header row
and the modified-field vector. -/
structure LoopState where
  cacheA : List (Nat × Row)
  cacheB : List (Nat × Row)
  output : List Row
  warningsA : Nat
  warningsB : Nat
  addedCount : Nat
  modifiedCount : Nat
  removedCount : Nat
  totalCount : Nat
  first : Bool
  headers : Option Row
  modifiedFields : Option (List Bool)
deriving DecidableEq, Repr

/-- The state at loop entry (src/csvdiff.go lines 245-257). -/
def initState : LoopState :=
  { cacheA := []
    cacheB := []
    output := []
    warningsA := 0
    warningsB := 0
    addedCount := 0
    modifiedCount := 0
    removedCount := 0
    totalCount := 0
    first := true
    headers := none
    modifiedFields := none }

/-- The hashA == hashB branch of the main loop (src/csvdiff.go lines
296-320): compare the pair, emit the delta or the optional unchanged row,
and perform the header capture on the first such pair. -/
def alignedCase (cfg : Config) (rA rB : Row) (s : LoopState) : LoopState :=
  let res := areEquals rA rB cfg s.modifiedFields
  let s1 := { s with modifiedFields := res.mf }
  if res.same then
    if s1.first then
      { s1 with
        first := false
        output := if !cfg.noHeader || cfg.common then s1.output ++ [delta rA 61] else s1.output
        headers := if !cfg.noHeader then some (deepCopy rA) else s1.headers
        modifiedFields := some (List.replicate rA.length false) }
    else if cfg.common then { s1 with output := s1.output ++ [delta rA 61] }
    else s1
  else
    let s2 := { s1 with
      output := s1.output ++ [res.rowDelta]
      modifiedCount := s1.modifiedCount + 1 }
    if s2.first then
      { s2 with
        first := false
        headers := if !cfg.noHeader then some (deepCopy (res.rowDelta.drop 1)) else s2.headers
        modifiedFields := some (List.replicate (res.rowDelta.length - 1) false) }
    else s2

/-- First half of the hashA != hashB branch (src/csvdiff.go lines
322-335): probe cacheB with hashA; on a hit, pair row A with the cached
row; on a miss, insert row A into cacheA with overwrite semantics and a
duplicate-key warning when the hash was already present. -/
def probeCacheB (cfg : Config) (rA : Row) (hA : Nat) (s : LoopState) : LoopState :=
  match cacheLookup s.cacheB hA with
  | some altB =>
    let sb := { s with cacheB := cacheErase s.cacheB hA }
    let res := areEquals rA altB cfg sb.modifiedFields
    let sb1 := { sb with modifiedFields := res.mf }
    if !res.same then
      { sb1 with
        output := sb1.output ++ [res.rowDelta]
        modifiedCount := sb1.modifiedCount + 1 }
    else if cfg.common then { sb1 with output := sb1.output ++ [delta rA 61] }
    else sb1
  | none =>
    let sw := if (cacheLookup s.cacheA hA).isSome then { s with warningsA := s.warningsA + 1 } else s
    { sw with cacheA := cacheInsert sw.cacheA hA (deepCopy rA) }

/-- Second half of the hashA != hashB branch (src/csvdiff.go lines
336-349): probe cacheA with hashB, symmetrically. -/
def probeCacheA (cfg : Config) (rB : Row) (hB : Nat) (s : LoopState) : LoopState :=
  match cacheLookup s.cacheA hB with
  | some altA =>
    let sa := { s with cacheA := cacheErase s.cacheA hB }
    let res := areEquals altA rB cfg sa.modifiedFields
    let sa1 := { sa with modifiedFields := res.mf }
    if !res.same then
      { sa1 with
        output := sa1.output ++ [res.rowDelta]
        modifiedCount := sa1.modifiedCount + 1 }
    else if cfg.common then { sa1 with output := sa1.output ++ [delta rB 61] }
    else sa1
  | none =>
    let sw := if (cacheLookup s.cacheB hB).isSome then { s with warningsB := s.warningsB + 1 } else s
    { sw with cacheB := cacheInsert sw.cacheB hB (deepCopy rB) }

/-- The hashA != hashB branch of the main loop (src/csvdiff.go lines
321-350): both probes happen, the second on the state left by the first. -/
def misalignedCase (cfg : Config) (rA : Row) (hA : Nat) (rB : Row) (hB : Nat)
    (s : LoopState) : LoopState :=
  probeCacheA cfg rB hB (probeCacheB cfg rA hA s)

/-- The Go nil row of a missing read, as checkRow receives it (length 0). -/
def rowOrNil (opt : Option Row) : Row :=
  opt.getD []

/-- One iteration of the main loop (src/csvdiff.go lines 258-351), given
the rows read from each side this iteration (none when that input is
exhausted). While the first flag is set, checkRow runs on the raw rows;
then a missing side is resolved through the opposite cache, pure
additions/removals are emitted immediately, and surviving pairs go to the
aligned or misaligned branch. -/
def step (cfg : Config) (optA optB : Option Row) (s : LoopState) : Except String LoopState :=
  match optA, optB with
  | none, none => Except.ok s
  | _, _ =>
    match (if s.first then checkRow (rowOrNil optA) (rowOrNil optB) cfg else Except.ok ()) with
    | Except.error e => Except.error e
    | Except.ok _ =>
      let s0 := { s with totalCount := s.totalCount + 1 }
      match optA, optB with
      | some rA, some rB =>
        let hA := hashRow cfg.keys rA
        let hB := hashRow cfg.keys rB
        Except.ok (if hA = hB then alignedCase cfg rA rB s0 else misalignedCase cfg rA hA rB hB s0)
      | some rA, none =>
        let hA := hashRow cfg.keys rA
        match cacheLookup s0.cacheB hA with
        | some rB => Except.ok (alignedCase cfg rA rB { s0 with cacheB := cacheErase s0.cacheB hA })
        | none => Except.ok { s0 with
            output := s0.output ++ [delta rA 45]
            removedCount := s0.removedCount + 1 }
      | none, some rB =>
        let hB := hashRow cfg.keys rB
        match cacheLookup s0.cacheA hB with
        | some rA => Except.ok (alignedCase cfg rA rB { s0 with cacheA := cacheErase s0.cacheA hB })
        | none => Except.ok { s0 with
            output := s0.output ++ [delta rB 43]
            addedCount := s0.addedCount + 1 }
      | none, none => Except.ok s0

/-- Tail of the per-row loop once input A is exhausted: only rows of B
remain to be read. -/
def runLoopB (cfg : Config) : List Row → LoopState → Except String LoopState
  | [], s => Except.ok s
  | b :: bs, s => (step cfg none (some b) s).bind (runLoopB cfg bs)

/-- Tail of the per-row loop once input B is exhausted: only rows of A
remain to be read. -/
def runLoopA (cfg : Config) : List Row → LoopState → Except String LoopState
  | [], s => Except.ok s
  | a :: as, s => (step cfg (some a) none s).bind (runLoopA cfg as)

/-- The per-row loop (src/csvdiff.go lines 258-351) over the two input
row lists, read in lockstep. -/
def runLoop (cfg : Config) : List Row → List Row → LoopState → Except String LoopState
  | [], bs, s => runLoopB cfg bs s
  | a :: as, [], s => (step cfg (some a) none s).bind (runLoopA cfg as)
  | a :: as, b :: bs, s => (step cfg (some a) (some b) s).bind (runLoop cfg as bs)

/-- The end-of-run drain (src/csvdiff.go lines 352-359): every row still
in cacheA is emitted as a removal, every row in cacheB as an addition. -/
def drain (s : LoopState) : LoopState :=
  { s with
    output := s.output ++ s.cacheA.map (fun p => delta p.2 45) ++ s.cacheB.map (fun p => delta p.2 43)
    removedCount := s.removedCount + s.cacheA.length
    addedCount := s.addedCount + s.cacheB.length }

/-- The exit status (src/csvdiff.go lines 364-382): 1 when any counter is
positive, 0 otherwise. -/
def exitCode (s : LoopState) : Nat :=
  if s.addedCount > 0 || s.removedCount > 0 || s.modifiedCount > 0 then 1 else 0

/-- A whole run of the program core on the two input row lists: the main
loop followed by the drain. -/
def run (cfg : Config) (inputA inputB : List Row) : Except String LoopState :=
  (runLoop cfg inputA inputB initState).map drain

/-- ASCII byte string of a Lean string, for concrete examples. -/
def strBytes (s : String) : Field :=
  s.data.map Char.toNat

/-- Sample configuration used by concrete witnesses: key field 1, no
ignored fields, piped format. -/
def sampleCfg : Config :=
  { keys := [0], ignoredFields := [], noHeader := false, format := 1, symbol := 124, common := false }

/-- Sample mid-run loop state with the first flag already cleared. -/
def sampleState : LoopState :=
  { initState with first := false }

/-- Sample mid-run state whose side-A cache already holds a row under the
key hash of the byte row [[49]]. -/
def dupState : LoopState :=
  { initState with
    first := false
    cacheA := [(hashRow sampleCfg.keys [[49]], [[49], [99]])] }

deriving instance DecidableEq for Except

/-- The delta rows written by a whole run (empty when the run aborts). -/
def runOutput (cfg : Config) (a b : List Row) : List Row :=
  match run cfg a b with
  | Except.ok s => s.output
  | Except.error _ => []

/-- Row of two fields used in concrete equal-pair scenarios. -/
def eqRow : Row := [[107], [118]]

/-- Whether a whole run aborts with a fatal error. -/
def runAborts (cfg : Config) (a b : List Row) : Bool :=
  match run cfg a b with
  | Except.ok _ => false
  | Except.error _ => true

/-- The process exit status of a whole run: the fatal-abort paths exit
non-zero via log.Fatalf, otherwise the counters decide (src/csvdiff.go
lines 360-383). -/
def runExitCode (cfg : Config) (a b : List Row) : Nat :=
  match run cfg a b with
  | Except.ok s => exitCode s
  | Except.error _ => 1

/-- Configuration with key field 1 and a user-supplied ignored-field
index of 0, as parseArgs would build it. -/
def ignZeroCfg : Config :=
  { keys := atouis [1], ignoredFields := toIgnoredFields [0], noHeader := false,
    format := 1, symbol := 124, common := false }

/-- Removed counter of a whole run (0 when the run aborts). -/
def runRemoved (cfg : Config) (a b : List Row) : Nat :=
  match run cfg a b with
  | Except.ok s => s.removedCount
  | Except.error _ => 0

/-- Added counter of a whole run (0 when the run aborts). -/
def runAdded (cfg : Config) (a b : List Row) : Nat :=
  match run cfg a b with
  | Except.ok s => s.addedCount
  | Except.error _ => 0

/-- Modified counter of a whole run (0 when the run aborts). -/
def runModified (cfg : Config) (a b : List Row) : Nat :=
  match run cfg a b with
  | Except.ok s => s.modifiedCount
  | Except.error _ => 0

/-- Same configuration as sampleCfg but with unchanged output requested. -/
def sampleCfgCommon : Config :=
  { sampleCfg with common := true }

/-- Input A of the end-to-end example: rows 1 Alice 30, 2 Bob 25, 4 Dana 40. -/
def inputA8 : List Row :=
  [[strBytes "1", strBytes "Alice", strBytes "30"],
   [strBytes "2", strBytes "Bob", strBytes "25"],
   [strBytes "4", strBytes "Dana", strBytes "40"]]

/-- Input B of the end-to-end example: rows 2 Bob 25, 1 Alice 31, 3 Carol 22. -/
def inputB8 : List Row :=
  [[strBytes "2", strBytes "Bob", strBytes "25"],
   [strBytes "1", strBytes "Alice", strBytes "31"],
   [strBytes "3", strBytes "Carol", strBytes "22"]]

/-- Configuration with key field 1 and ignored field 2 (0-based 1). -/
def ignOneCfg : Config :=
  { keys := atouis [1], ignoredFields := toIgnoredFields [2], noHeader := false,
    format := 1, symbol := 124, common := false }

/-- All configured key and ignored-field indexes are in range for row r
(so checkRow cannot abort on it and hashRow indexes it safely). -/
def rowOK (cfg : Config) (r : Row) : Prop :=
  (∀ k ∈ cfg.keys, uint64ToInt k < (r.length : Int)) ∧
  (∀ f ∈ cfg.ignoredFields, f < (r.length : Int))

instance (cfg : Config) (r : Row) : Decidable (rowOK cfg r) := by
  unfold rowOK
  infer_instance

/-- One side of the pending-match-cache invariant for the identity run:
cacheA holds exactly the rows already read from A whose key hash has not
yet been seen on B. -/
def INVhalf (hash : Row → Nat) (a b : List Row) (cA : List (Nat × Row)) : Prop :=
  (∀ h r, cacheLookup cA h = some r → r ∈ a ∧ hash r = h ∧ ¬ h ∈ b.map hash) ∧
  (∀ r ∈ a, ¬ (hash r) ∈ b.map hash → cacheLookup cA (hash r) = some r)

/-- Configuration whose key is the pair of fields 1 and 2, where the
key-concatenation collision of the counterexample lives. -/
def collCfg : Config :=
  { keys := atouis [1, 2], ignoredFields := [], noHeader := false,
    format := 1, symbol := 124, common := false }

/-- Row with key fields ab and c: the key bytes concatenate to abc. -/
def collRow1 : Row := [strBytes "ab", strBytes "c"]

/-- Row with key fields a and bc: the key bytes also concatenate to abc. -/
def collRow2 : Row := [strBytes "a", strBytes "bc"]

/-- Input-B row with key bytes de, matching nothing in input A. -/
def qrow1 : Row := [strBytes "d", strBytes "e"]

/-- Input-B row with key bytes fg, matching nothing in input A. -/
def qrow2 : Row := [strBytes "f", strBytes "g"]

theorem cacheLookup_erase_self (c : List (Nat × Row)) (h : Nat) :
    cacheLookup (cacheErase c h) h = none := by
  induction c with
  | nil => rfl
  | cons p ps ih =>
    by_cases hp : p.1 = h
    · simpa [cacheErase, hp] using ih
    · simpa [cacheErase, cacheLookup, hp] using ih

theorem cacheLookup_erase_ne (c : List (Nat × Row)) (h h2 : Nat) (hne : h2 ≠ h) :
    cacheLookup (cacheErase c h) h2 = cacheLookup c h2 := by
  induction c with
  | nil => rfl
  | cons p ps ih =>
    by_cases hp : p.1 = h
    · have hdrop : cacheErase (p :: ps) h = cacheErase ps h := by
        simp [cacheErase, hp]
      have hq : ¬ p.1 = h2 := by rw [hp]; exact fun hc => hne hc.symm
      rw [hdrop, ih]
      simp [cacheLookup, hq]
    · have hkeep : cacheErase (p :: ps) h = p :: cacheErase ps h := by
        simp [cacheErase, hp]
      rw [hkeep]
      by_cases hq : p.1 = h2
      · simp [cacheLookup, hq]
      · simp [cacheLookup, hq, ih]

theorem cacheLookup_append (c1 c2 : List (Nat × Row)) (h : Nat) :
    cacheLookup (c1 ++ c2) h =
      match cacheLookup c1 h with
      | some r => some r
      | none => cacheLookup c2 h := by
  induction c1 with
  | nil => rfl
  | cons p ps ih =>
    by_cases hp : p.1 = h
    · simp [cacheLookup, hp]
    · simp [cacheLookup, hp, ih]

theorem cacheLookup_insert_self (c : List (Nat × Row)) (h : Nat) (r : Row) :
    cacheLookup (cacheInsert c h r) h = some r := by
  unfold cacheInsert
  rw [cacheLookup_append, cacheLookup_erase_self]
  simp [cacheLookup]

theorem cacheLookup_insert_ne (c : List (Nat × Row)) (h h2 : Nat) (r : Row) (hne : h2 ≠ h) :
    cacheLookup (cacheInsert c h r) h2 = cacheLookup c h2 := by
  unfold cacheInsert
  rw [cacheLookup_append, cacheLookup_erase_ne c h h2 hne]
  cases hl : cacheLookup c h2 with
  | some r2 => simp
  | none => simp [cacheLookup, Ne.symm hne]

theorem eq_nil_of_cacheLookup_none (c : List (Nat × Row))
    (h : ∀ k, cacheLookup c k = none) : c = [] := by
  cases c with
  | nil => rfl
  | cons p ps =>
    have := h p.1
    simp [cacheLookup] at this

theorem deepCopy_eq (row : Row) : deepCopy row = row := by
  unfold deepCopy
  induction row with
  | nil => rfl
  | cons f fs ih => simp_all

theorem aeStep1_self (r : Row) (cfg : Config) (maxLen : Nat) (rd : List Field)
    (mf : Option (List Bool)) (i : Nat) :
    aeStep1 r r cfg maxLen (true, rd, mf) i = (true, rd, mf) := by
  simp [aeStep1]

theorem foldl_aeStep1_self (r : Row) (cfg : Config) (maxLen : Nat) (rd : List Field)
    (mf : Option (List Bool)) (l : List Nat) :
    l.foldl (aeStep1 r r cfg maxLen) (true, rd, mf) = (true, rd, mf) := by
  induction l with
  | nil => rfl
  | cons i is ih => rw [List.foldl_cons, aeStep1_self]; exact ih

theorem areEquals_self (r : Row) (cfg : Config) (mf : Option (List Bool)) :
    areEquals r r cfg mf = { rowDelta := [], same := true, mf := mf } := by
  unfold areEquals
  simp [foldl_aeStep1_self]

/-- C2: for every run that completes without a fatal fault, the exit
status is 1 exactly when added + removed + modified is positive, and 0
exactly when that sum is zero. -/
theorem exit_code_law (cfg : Config) (inputA inputB : List Row) (s : LoopState)
    (h : run cfg inputA inputB = Except.ok s) :
    (exitCode s = 1 ↔ 0 < s.addedCount + s.removedCount + s.modifiedCount) ∧
    (exitCode s = 0 ↔ s.addedCount + s.removedCount + s.modifiedCount = 0) := by
  unfold exitCode
  split
  · rename_i hcond
    simp only [Bool.or_eq_true, decide_eq_true_eq] at hcond
    have hpos : 0 < s.addedCount + s.removedCount + s.modifiedCount := by
      rcases hcond with (hx | hx) | hx <;> omega
    constructor
    · exact ⟨fun _ => hpos, fun _ => rfl⟩
    · exact ⟨fun h10 => by omega, fun h0 => by omega⟩
  · rename_i hcond
    simp only [Bool.or_eq_true, decide_eq_true_eq, not_or, Nat.not_lt, Nat.le_zero] at hcond
    obtain ⟨⟨h1, h2⟩, h3⟩ := hcond
    constructor
    · exact ⟨fun h01 => by omega, fun hp => by omega⟩
    · exact ⟨fun _ => by omega, fun _ => rfl⟩

/-- C2 witness: a concrete fault-free run on two empty inputs. -/
theorem exit_code_law_witness :
    (exitCode (drain initState) = 1 ↔
      0 < (drain initState).addedCount + (drain initState).removedCount + (drain initState).modifiedCount) ∧
    (exitCode (drain initState) = 0 ↔
      (drain initState).addedCount + (drain initState).removedCount + (drain initState).modifiedCount = 0) :=
  exit_code_law
    { keys := [0], ignoredFields := [], noHeader := false, format := 1, symbol := 124, common := false }
    [] [] (drain initState) (by simp [run, runLoop, runLoopB, Except.map])

/-- C4 (amended): a row arriving when the other input is already
exhausted and whose key hash has no pending match in the opposite cache
is emitted immediately, exactly once, with its full field content and
its marker, the counter bumped by one; and the end-of-run drain emits
every row still RESIDENT in cacheA as a removal and every row resident
in cacheB as an addition, each exactly once, bumping the counters by the
cache sizes. (Resident is essential: a row whose cache entry was
overwritten by a later same-hash row on its own side before any match is
emitted zero times, so a key hash that is never paired does not by
itself guarantee emission.) -/
theorem unmatched_row_emission (cfg : Config) (s : LoopState) (a b : Row)
    (hfirst : s.first = false)
    (hmissA : cacheLookup s.cacheB (hashRow cfg.keys a) = none)
    (hmissB : cacheLookup s.cacheA (hashRow cfg.keys b) = none) :
    step cfg (some a) none s = Except.ok { s with
      output := s.output ++ [delta a 45]
      removedCount := s.removedCount + 1
      totalCount := s.totalCount + 1 } ∧
    step cfg none (some b) s = Except.ok { s with
      output := s.output ++ [delta b 43]
      addedCount := s.addedCount + 1
      totalCount := s.totalCount + 1 } ∧
    (drain s).output = s.output ++ s.cacheA.map (fun p => delta p.2 45) ++
      s.cacheB.map (fun p => delta p.2 43) ∧
    (drain s).removedCount = s.removedCount + s.cacheA.length ∧
    (drain s).addedCount = s.addedCount + s.cacheB.length := by
  refine ⟨?_, ?_, rfl, rfl, rfl⟩
  · simp [step, hfirst, hmissA]
  · simp [step, hfirst, hmissB]

/-- C4 witness at a concrete state and rows. -/
theorem unmatched_row_emission_witness :
    step sampleCfg (some [[49]]) none sampleState = Except.ok { sampleState with
      output := sampleState.output ++ [delta [[49]] 45]
      removedCount := sampleState.removedCount + 1
      totalCount := sampleState.totalCount + 1 } ∧
    step sampleCfg none (some [[50]]) sampleState = Except.ok { sampleState with
      output := sampleState.output ++ [delta [[50]] 43]
      addedCount := sampleState.addedCount + 1
      totalCount := sampleState.totalCount + 1 } ∧
    (drain sampleState).output = sampleState.output ++ sampleState.cacheA.map (fun p => delta p.2 45) ++
      sampleState.cacheB.map (fun p => delta p.2 43) ∧
    (drain sampleState).removedCount = sampleState.removedCount + sampleState.cacheA.length ∧
    (drain sampleState).addedCount = sampleState.addedCount + sampleState.cacheB.length :=
  unmatched_row_emission sampleCfg sampleState [[49]] [[50]] rfl rfl rfl

/-- C5: when a row arrives whose key hash already occupies its own side's
cache and the opposite cache has no match, the insertion overwrites the
cached row, exactly one duplicate warning goes to the diagnostics side
channel (not the delta stream, whose output is unchanged), processing
continues with an ok state, and afterwards the other side's lookup finds
only the second row. -/
theorem duplicate_key_overwrite (cfg : Config) (s : LoopState) (a b old : Row)
    (hfirst : s.first = false)
    (hne : hashRow cfg.keys a ≠ hashRow cfg.keys b)
    (hnomatch : cacheLookup s.cacheB (hashRow cfg.keys a) = none)
    (hdup : cacheLookup s.cacheA (hashRow cfg.keys a) = some old)
    (hb1 : cacheLookup s.cacheA (hashRow cfg.keys b) = none)
    (hb2 : cacheLookup s.cacheB (hashRow cfg.keys b) = none) :
    ∃ s2, step cfg (some a) (some b) s = Except.ok s2 ∧
      cacheLookup s2.cacheA (hashRow cfg.keys a) = some a ∧
      s2.warningsA = s.warningsA + 1 ∧
      s2.warningsB = s.warningsB ∧
      s2.output = s.output ∧
      s2.addedCount = s.addedCount ∧
      s2.removedCount = s.removedCount ∧
      s2.modifiedCount = s.modifiedCount := by
  have hba : hashRow cfg.keys b ≠ hashRow cfg.keys a := Ne.symm hne
  have hinsB : cacheLookup (cacheInsert s.cacheA (hashRow cfg.keys a) (deepCopy a))
      (hashRow cfg.keys b) = none := by
    rw [cacheLookup_insert_ne _ _ _ _ hba, hb1]
  have hmisg : ∀ t : LoopState, t.cacheA = s.cacheA → t.cacheB = s.cacheB →
      misalignedCase cfg a (hashRow cfg.keys a) b (hashRow cfg.keys b) t =
      { t with
        warningsA := t.warningsA + 1
        cacheA := cacheInsert s.cacheA (hashRow cfg.keys a) (deepCopy a)
        cacheB := cacheInsert s.cacheB (hashRow cfg.keys b) (deepCopy b) } := by
    intro t htA htB
    simp only [misalignedCase, probeCacheB, probeCacheA, htA, htB, hnomatch, hdup, hinsB, hb2,
      Option.isSome_some, Option.isSome_none, if_true, Bool.false_eq_true, if_false]
  refine ⟨{ s with
      totalCount := s.totalCount + 1
      first := false
      warningsA := s.warningsA + 1
      cacheA := cacheInsert s.cacheA (hashRow cfg.keys a) (deepCopy a)
      cacheB := cacheInsert s.cacheB (hashRow cfg.keys b) (deepCopy b) },
    ?_, ?_, rfl, rfl, rfl, rfl, rfl, rfl⟩
  · simp only [step, hfirst]
    rw [if_neg hne, hmisg { s with totalCount := s.totalCount + 1, first := false } rfl rfl]
    simp
  · rw [cacheLookup_insert_self, deepCopy_eq]

/-- C5 witness at a concrete duplicate-key state. -/
theorem duplicate_key_overwrite_witness :
    ∃ s2, step sampleCfg (some [[49]]) (some [[50]]) dupState = Except.ok s2 ∧
      cacheLookup s2.cacheA (hashRow sampleCfg.keys [[49]]) = some [[49]] ∧
      s2.warningsA = dupState.warningsA + 1 ∧
      s2.warningsB = dupState.warningsB ∧
      s2.output = dupState.output ∧
      s2.addedCount = dupState.addedCount ∧
      s2.removedCount = dupState.removedCount ∧
      s2.modifiedCount = dupState.modifiedCount :=
  duplicate_key_overwrite sampleCfg dupState [[49]] [[50]] [[49], [99]]
    rfl (by decide) rfl (by decide) (by decide) rfl

theorem aeStep1_fst (rowA rowB : Row) (cfg : Config) (maxLen : Nat)
    (st : Bool × List Field × Option (List Bool)) (i : Nat) :
    (aeStep1 rowA rowB cfg maxLen st i).1 =
      (st.1 && (ignoredContains cfg i || rowA.getD i [] == rowB.getD i [])) := by
  unfold aeStep1
  cases hign : ignoredContains cfg i <;>
    cases heq : (rowA.getD i [] == rowB.getD i []) <;>
    cases hst : st.1 <;>
    simp [hign, heq, hst]

theorem aeStep1_skip (rowA rowB : Row) (cfg : Config) (maxLen : Nat)
    (st : Bool × List Field × Option (List Bool)) (i : Nat)
    (h : (aeStep1 rowA rowB cfg maxLen st i).1 = true) :
    aeStep1 rowA rowB cfg maxLen st i = st := by
  have hfst := aeStep1_fst rowA rowB cfg maxLen st i
  rw [h] at hfst
  have hst : st.1 = true := by
    cases hx : st.1
    · rw [hx] at hfst; simp at hfst
    · rfl
  have hor : (ignoredContains cfg i || rowA.getD i [] == rowB.getD i []) = true := by
    rw [hst] at hfst
    simpa using hfst.symm
  have hcond : (!ignoredContains cfg i && !(rowA.getD i [] == rowB.getD i [])) = false := by
    cases hign : ignoredContains cfg i <;>
      cases heq : (rowA.getD i [] == rowB.getD i [])
    · rw [hign, heq] at hor
      simp at hor
    · simp [hign, heq]
    · simp [hign, heq]
    · simp [hign, heq]
  unfold aeStep1
  simp only [hcond, Bool.false_eq_true, if_false, hst, Bool.not_true]

theorem foldl_aeStep1_of_true (rowA rowB : Row) (cfg : Config) (maxLen : Nat)
    (l : List Nat) (st : Bool × List Field × Option (List Bool))
    (h : (l.foldl (aeStep1 rowA rowB cfg maxLen) st).1 = true) :
    l.foldl (aeStep1 rowA rowB cfg maxLen) st = st := by
  induction l generalizing st with
  | nil => rfl
  | cons i is ih =>
    rw [List.foldl_cons] at h ⊢
    have hstep : (aeStep1 rowA rowB cfg maxLen st i).1 = true := by
      by_contra hc
      have hfalse : (aeStep1 rowA rowB cfg maxLen st i).1 = false := by
        cases hx : (aeStep1 rowA rowB cfg maxLen st i).1
        · rfl
        · exact absurd hx hc
      have : ∀ (l2 : List Nat) (st2 : Bool × List Field × Option (List Bool)),
          st2.1 = false → (l2.foldl (aeStep1 rowA rowB cfg maxLen) st2).1 = false := by
        intro l2
        induction l2 with
        | nil => intro st2 h2; exact h2
        | cons j js ihj =>
          intro st2 h2
          rw [List.foldl_cons]
          exact ihj _ (by rw [aeStep1_fst, h2, Bool.false_and])
      rw [this is _ hfalse] at h
      exact Bool.false_ne_true h
    rw [aeStep1_skip _ _ _ _ _ _ hstep] at h ⊢
    exact ih st h

theorem areEquals_same_spec (rowA rowB : Row) (cfg : Config) (mf : Option (List Bool))
    (h : (areEquals rowA rowB cfg mf).same = true) :
    areEquals rowA rowB cfg mf = { rowDelta := [], same := true, mf := mf } ∧
    rowA.length = rowB.length := by
  unfold areEquals at h ⊢
  simp only at h ⊢
  have hfold := foldl_aeStep1_of_true _ _ _ _ _ _ h
  rw [hfold] at h ⊢
  have hlen : rowA.length = rowB.length := by
    have := h
    simpa using this
  have hmm : max rowA.length rowB.length - min rowA.length rowB.length = 0 := by
    omega
  rw [hmm]
  simp [hlen]

theorem aeStep1_mf_none (rowA rowB : Row) (cfg : Config) (maxLen : Nat)
    (st : Bool × List Field × Option (List Bool)) (i : Nat) (h : st.2.2 = none) :
    (aeStep1 rowA rowB cfg maxLen st i).2.2 = none := by
  unfold aeStep1
  by_cases h1 : (!ignoredContains cfg i && !(rowA.getD i [] == rowB.getD i [])) = true
  · rw [if_pos h1]
    simp [h, update]
  · rw [if_neg h1]
    by_cases h2 : (!st.1) = true
    · rw [if_pos h2]
      exact h
    · rw [if_neg h2]
      exact h

theorem foldl_aeStep1_mf_none (rowA rowB : Row) (cfg : Config) (maxLen : Nat)
    (l : List Nat) (st : Bool × List Field × Option (List Bool)) (h : st.2.2 = none) :
    (l.foldl (aeStep1 rowA rowB cfg maxLen) st).2.2 = none := by
  induction l generalizing st with
  | nil => exact h
  | cons i is ih =>
    rw [List.foldl_cons]
    exact ih _ (aeStep1_mf_none _ _ _ _ _ _ h)

theorem aeStep2_mf_none (rowA rowB : Row) (cfg : Config) (longest : Nat)
    (st : List Field × Option (List Bool)) (i : Nat) (h : st.2 = none) :
    (aeStep2 rowA rowB cfg longest st i).2 = none := by
  unfold aeStep2
  by_cases h1 : ignoredContains cfg i = true
  · rw [if_pos h1]; exact h
  · rw [if_neg h1]
    by_cases h2 : longest = 1
    · rw [if_pos h2]; simp [h, update]
    · rw [if_neg h2]
      by_cases h3 : longest = 2
      · rw [if_pos h3]; simp [h, update]
      · rw [if_neg h3]; exact h

theorem foldl_aeStep2_mf_none (rowA rowB : Row) (cfg : Config) (longest : Nat)
    (l : List Nat) (st : List Field × Option (List Bool)) (h : st.2 = none) :
    (l.foldl (aeStep2 rowA rowB cfg longest) st).2 = none := by
  induction l generalizing st with
  | nil => exact h
  | cons i is ih =>
    rw [List.foldl_cons]
    exact ih _ (aeStep2_mf_none _ _ _ _ _ _ h)

theorem areEquals_mf_none (rowA rowB : Row) (cfg : Config) :
    (areEquals rowA rowB cfg none).mf = none := by
  unfold areEquals
  exact foldl_aeStep2_mf_none _ _ _ _ _ _ (foldl_aeStep1_mf_none _ _ _ _ _ _ rfl)

theorem alignedCase_same (cfg : Config) (a b : Row) (s : LoopState)
    (hsame : (areEquals a b cfg s.modifiedFields).same = true) :
    alignedCase cfg a b s =
      if s.first then
        { s with
          first := false
          output := if !cfg.noHeader || cfg.common then s.output ++ [delta a 61] else s.output
          headers := if !cfg.noHeader then some (deepCopy a) else s.headers
          modifiedFields := some (List.replicate a.length false) }
      else if cfg.common then { s with output := s.output ++ [delta a 61] }
      else s := by
  have hspec := (areEquals_same_spec a b cfg s.modifiedFields hsame).1
  unfold alignedCase
  rw [hspec]
  cases hf : s.first <;> cases hc : cfg.common <;> simp [hf, hc] <;> rw [← hf]

theorem alignedCase_diff (cfg : Config) (a b : Row) (s : LoopState)
    (hsame : (areEquals a b cfg s.modifiedFields).same = false) :
    alignedCase cfg a b s =
      if s.first then
        { s with
          first := false
          output := s.output ++ [(areEquals a b cfg s.modifiedFields).rowDelta]
          modifiedCount := s.modifiedCount + 1
          headers := if !cfg.noHeader then
              some (deepCopy ((areEquals a b cfg s.modifiedFields).rowDelta.drop 1))
            else s.headers
          modifiedFields :=
            some (List.replicate ((areEquals a b cfg s.modifiedFields).rowDelta.length - 1) false) }
      else
        { s with
          output := s.output ++ [(areEquals a b cfg s.modifiedFields).rowDelta]
          modifiedCount := s.modifiedCount + 1
          modifiedFields := (areEquals a b cfg s.modifiedFields).mf } := by
  unfold alignedCase
  cases hf : s.first <;> simp [hsame, hf]

theorem step_aligned (cfg : Config) (a b : Row) (s : LoopState)
    (hok : s.first = true → checkRow a b cfg = Except.ok ())
    (hal : hashRow cfg.keys a = hashRow cfg.keys b) :
    step cfg (some a) (some b) s =
      Except.ok (alignedCase cfg a b { s with totalCount := s.totalCount + 1 }) := by
  cases hf : s.first
  · simp [step, hf, hal]
  · simp [step, rowOrNil, hf, hok hf, hal]

theorem step_misaligned (cfg : Config) (a b : Row) (s : LoopState)
    (hok : s.first = true → checkRow a b cfg = Except.ok ())
    (hne : hashRow cfg.keys a ≠ hashRow cfg.keys b) :
    step cfg (some a) (some b) s =
      Except.ok (misalignedCase cfg a (hashRow cfg.keys a) b (hashRow cfg.keys b)
        { s with totalCount := s.totalCount + 1 }) := by
  cases hf : s.first
  · simp [step, hf]
    exact fun h => absurd h hne
  · simp [step, rowOrNil, hf, hok hf]
    exact fun h => absurd h hne

theorem probeCacheB_preserved (cfg : Config) (rA : Row) (hA : Nat) (s : LoopState) :
    (probeCacheB cfg rA hA s).first = s.first ∧
    (probeCacheB cfg rA hA s).headers = s.headers ∧
    (probeCacheB cfg rA hA s).addedCount = s.addedCount ∧
    (probeCacheB cfg rA hA s).removedCount = s.removedCount ∧
    (probeCacheB cfg rA hA s).totalCount = s.totalCount := by
  unfold probeCacheB
  cases h1 : cacheLookup s.cacheB hA with
  | none =>
    by_cases h2 : (cacheLookup s.cacheA hA).isSome = true <;> simp [h2]
  | some altB =>
    by_cases h3 : (!(areEquals rA altB cfg s.modifiedFields).same) = true
    · simp [h3]
    · by_cases h4 : cfg.common = true <;> simp [h3, h4]

theorem probeCacheA_preserved (cfg : Config) (rB : Row) (hB : Nat) (s : LoopState) :
    (probeCacheA cfg rB hB s).first = s.first ∧
    (probeCacheA cfg rB hB s).headers = s.headers ∧
    (probeCacheA cfg rB hB s).addedCount = s.addedCount ∧
    (probeCacheA cfg rB hB s).removedCount = s.removedCount ∧
    (probeCacheA cfg rB hB s).totalCount = s.totalCount := by
  unfold probeCacheA
  cases h1 : cacheLookup s.cacheA hB with
  | none =>
    by_cases h2 : (cacheLookup s.cacheB hB).isSome = true <;> simp [h2]
  | some altA =>
    by_cases h3 : (!(areEquals altA rB cfg s.modifiedFields).same) = true
    · simp [h3]
    · by_cases h4 : cfg.common = true <;> simp [h3, h4]

theorem probeCacheB_mf_none (cfg : Config) (rA : Row) (hA : Nat) (s : LoopState)
    (hmf : s.modifiedFields = none) :
    (probeCacheB cfg rA hA s).modifiedFields = none := by
  unfold probeCacheB
  cases h1 : cacheLookup s.cacheB hA with
  | none =>
    by_cases h2 : (cacheLookup s.cacheA hA).isSome = true <;> simp [h2, hmf]
  | some altB =>
    have hres : (areEquals rA altB cfg s.modifiedFields).mf = none := by
      rw [hmf]
      exact areEquals_mf_none _ _ _
    by_cases h3 : (!(areEquals rA altB cfg s.modifiedFields).same) = true
    · simp [h3, hres]
    · by_cases h4 : cfg.common = true <;> simp [h3, h4, hres]

theorem probeCacheA_mf_none (cfg : Config) (rB : Row) (hB : Nat) (s : LoopState)
    (hmf : s.modifiedFields = none) :
    (probeCacheA cfg rB hB s).modifiedFields = none := by
  unfold probeCacheA
  cases h1 : cacheLookup s.cacheA hB with
  | none =>
    by_cases h2 : (cacheLookup s.cacheB hB).isSome = true <;> simp [h2, hmf]
  | some altA =>
    have hres : (areEquals altA rB cfg s.modifiedFields).mf = none := by
      rw [hmf]
      exact areEquals_mf_none _ _ _
    by_cases h3 : (!(areEquals altA rB cfg s.modifiedFields).same) = true
    · simp [h3, hres]
    · by_cases h4 : cfg.common = true <;> simp [h3, h4, hres]

theorem probeCacheB_found_same (cfg : Config) (rA : Row) (hA : Nat) (s : LoopState) (altB : Row)
    (hfound : cacheLookup s.cacheB hA = some altB)
    (hsame : (areEquals rA altB cfg s.modifiedFields).same = true) :
    probeCacheB cfg rA hA s =
      { s with
        cacheB := cacheErase s.cacheB hA
        output := if cfg.common then s.output ++ [delta rA 61] else s.output } := by
  have hspec := (areEquals_same_spec rA altB cfg s.modifiedFields hsame).1
  unfold probeCacheB
  rw [hfound]
  simp only
  rw [hspec]
  cases hc : cfg.common <;> simp [hc]

theorem probeCacheA_found_same (cfg : Config) (rB : Row) (hB : Nat) (s : LoopState) (altA : Row)
    (hfound : cacheLookup s.cacheA hB = some altA)
    (hsame : (areEquals altA rB cfg s.modifiedFields).same = true) :
    probeCacheA cfg rB hB s =
      { s with
        cacheA := cacheErase s.cacheA hB
        output := if cfg.common then s.output ++ [delta rB 61] else s.output } := by
  have hspec := (areEquals_same_spec altA rB cfg s.modifiedFields hsame).1
  unfold probeCacheA
  rw [hfound]
  simp only
  rw [hspec]
  cases hc : cfg.common <;> simp [hc]

theorem probeCacheB_miss (cfg : Config) (rA : Row) (hA : Nat) (s : LoopState)
    (hmiss : cacheLookup s.cacheB hA = none) :
    probeCacheB cfg rA hA s =
      { s with
        warningsA := if (cacheLookup s.cacheA hA).isSome then s.warningsA + 1 else s.warningsA
        cacheA := cacheInsert s.cacheA hA (deepCopy rA) } := by
  unfold probeCacheB
  rw [hmiss]
  by_cases h2 : (cacheLookup s.cacheA hA).isSome = true <;> simp [h2]

theorem probeCacheA_miss (cfg : Config) (rB : Row) (hB : Nat) (s : LoopState)
    (hmiss : cacheLookup s.cacheA hB = none) :
    probeCacheA cfg rB hB s =
      { s with
        warningsB := if (cacheLookup s.cacheB hB).isSome then s.warningsB + 1 else s.warningsB
        cacheB := cacheInsert s.cacheB hB (deepCopy rB) } := by
  unfold probeCacheA
  rw [hmiss]
  by_cases h2 : (cacheLookup s.cacheB hB).isSome = true <;> simp [h2]

theorem alignedCase_not_first (cfg : Config) (a b : Row) (s : LoopState)
    (h : s.first = false) :
    (alignedCase cfg a b s).first = false ∧ (alignedCase cfg a b s).headers = s.headers := by
  cases hsame : (areEquals a b cfg s.modifiedFields).same
  · rw [alignedCase_diff _ _ _ _ hsame]
    simp [h]
  · rw [alignedCase_same _ _ _ _ hsame]
    cases hc : cfg.common <;> simp [h, hc]

/-- C9 (amended): a pair of rows classified as equal produces no delta
row (the modified counter is untouched), and the only possible emission
for the pair is one unchanged-marker row; that row appears exactly when
unchanged output was requested, except on the first aligned pair, where
it is also emitted as a header echo whenever headers are enabled. -/
theorem equal_pair_emission (cfg : Config) (s : LoopState) (a b : Row)
    (hok : s.first = true → checkRow a b cfg = Except.ok ())
    (hal : hashRow cfg.keys a = hashRow cfg.keys b)
    (hsame : (areEquals a b cfg s.modifiedFields).same = true) :
    ∃ s2, step cfg (some a) (some b) s = Except.ok s2 ∧
      s2.modifiedCount = s.modifiedCount ∧
      s2.output = s.output ++
        (if s.first = true then
          (if cfg.noHeader = false || cfg.common = true then [delta a 61] else [])
         else if cfg.common = true then [delta a 61] else []) := by
  rw [step_aligned cfg a b s hok hal]
  have hsame0 : (areEquals a b cfg
      ({ s with totalCount := s.totalCount + 1 } : LoopState).modifiedFields).same = true := hsame
  rw [alignedCase_same cfg a b { s with totalCount := s.totalCount + 1 } hsame0]
  refine ⟨_, rfl, ?_, ?_⟩ <;>
    cases hf : s.first <;> cases hnh : cfg.noHeader <;> cases hc : cfg.common <;>
      simp [hf, hnh, hc]

/-- C9 witness: a concrete aligned equal pair at the start of a run. -/
theorem equal_pair_emission_witness :
    ∃ s2, step sampleCfg (some eqRow) (some eqRow) initState = Except.ok s2 ∧
      s2.modifiedCount = initState.modifiedCount ∧
      s2.output = initState.output ++
        (if initState.first = true then
          (if sampleCfg.noHeader = false || sampleCfg.common = true then [delta eqRow 61] else [])
         else if sampleCfg.common = true then [delta eqRow 61] else []) :=
  equal_pair_emission sampleCfg initState eqRow eqRow (fun _ => by decide) rfl (by decide)

/-- C9 counterexample: with unchanged output NOT requested and headers
enabled, the very first equal pair still emits an unchanged-marker row,
so the claim that an unchanged-marker row appears only when explicitly
requested is false. -/
theorem equal_pair_emission_counterexample :
    sampleCfg.common = false ∧
    runOutput sampleCfg [[[107], [118]]] [[[107], [118]]] = [delta [[107], [118]] 61] :=
  ⟨rfl, by decide⟩

/-- C6 (amended): the header row and the modified-field vector are
captured on the first row pair whose key hashes are EQUAL, not on the
first pair ever classified: a misaligned pair encountered while the first
flag is still set performs no capture and leaves the flag set, an aligned
pair encountered with the flag set performs the capture (the vector is
sized at that moment, the header is recorded whenever headers are
enabled), and once the flag is cleared no later step changes the captured
header or the flag, so capture happens at most once per run. -/
theorem header_capture_timing (cfg : Config) (s : LoopState) (a b : Row)
    (hok : s.first = true → checkRow a b cfg = Except.ok ()) :
    (hashRow cfg.keys a ≠ hashRow cfg.keys b → s.first = true → s.modifiedFields = none →
      ∃ s2, step cfg (some a) (some b) s = Except.ok s2 ∧
        s2.first = true ∧ s2.headers = s.headers ∧ s2.modifiedFields = none) ∧
    (hashRow cfg.keys a = hashRow cfg.keys b → s.first = true →
      ∃ s2, step cfg (some a) (some b) s = Except.ok s2 ∧
        s2.first = false ∧
        (∃ m, s2.modifiedFields = some (List.replicate m false)) ∧
        (cfg.noHeader = false → ∃ hrow, s2.headers = some hrow)) ∧
    (∀ optA optB s2, s.first = false → step cfg optA optB s = Except.ok s2 →
      s2.first = false ∧ s2.headers = s.headers) := by
  refine ⟨?_, ?_, ?_⟩
  · intro hne hf hmf
    rw [step_misaligned cfg a b s hok hne]
    refine ⟨_, rfl, ?_, ?_, ?_⟩
    · rw [misalignedCase, (probeCacheA_preserved _ _ _ _).1, (probeCacheB_preserved _ _ _ _).1]
      exact hf
    · rw [misalignedCase, (probeCacheA_preserved _ _ _ _).2.1, (probeCacheB_preserved _ _ _ _).2.1]
    · rw [misalignedCase]
      exact probeCacheA_mf_none _ _ _ _ (probeCacheB_mf_none _ _ _ _ hmf)
  · intro hal hf
    rw [step_aligned cfg a b s hok hal]
    cases hsame : (areEquals a b cfg
        ({ s with totalCount := s.totalCount + 1 } : LoopState).modifiedFields).same
    · rw [alignedCase_diff cfg a b _ hsame]
      refine ⟨_, rfl, ?_, ?_, ?_⟩ <;> simp [hf]
      · intro hnh
        simp [hnh]
    · rw [alignedCase_same cfg a b _ hsame]
      refine ⟨_, rfl, ?_, ?_, ?_⟩ <;> simp [hf]
      · intro hnh
        simp [hnh]
  · intro optA optB s2 hf hstep
    match optA, optB with
    | none, none =>
      simp only [step] at hstep
      cases hstep
      exact ⟨hf, rfl⟩
    | some a2, none =>
      rw [show step cfg (some a2) none s =
          (match cacheLookup s.cacheB (hashRow cfg.keys a2) with
            | some rB => Except.ok (alignedCase cfg a2 rB
                { s with totalCount := s.totalCount + 1, cacheB := cacheErase s.cacheB (hashRow cfg.keys a2) })
            | none => Except.ok { s with
                totalCount := s.totalCount + 1
                output := s.output ++ [delta a2 45]
                removedCount := s.removedCount + 1 }) from by
        simp [step, hf]] at hstep
      cases hlk : cacheLookup s.cacheB (hashRow cfg.keys a2) with
      | some rB =>
        rw [hlk] at hstep
        cases hstep
        have := alignedCase_not_first cfg a2 rB
          { s with totalCount := s.totalCount + 1, cacheB := cacheErase s.cacheB (hashRow cfg.keys a2) } hf
        exact ⟨this.1, this.2⟩
      | none =>
        rw [hlk] at hstep
        cases hstep
        exact ⟨hf, rfl⟩
    | none, some b2 =>
      rw [show step cfg none (some b2) s =
          (match cacheLookup s.cacheA (hashRow cfg.keys b2) with
            | some rA => Except.ok (alignedCase cfg rA b2
                { s with totalCount := s.totalCount + 1, cacheA := cacheErase s.cacheA (hashRow cfg.keys b2) })
            | none => Except.ok { s with
                totalCount := s.totalCount + 1
                output := s.output ++ [delta b2 43]
                addedCount := s.addedCount + 1 }) from by
        simp [step, hf]] at hstep
      cases hlk : cacheLookup s.cacheA (hashRow cfg.keys b2) with
      | some rA =>
        rw [hlk] at hstep
        cases hstep
        have := alignedCase_not_first cfg rA b2
          { s with totalCount := s.totalCount + 1, cacheA := cacheErase s.cacheA (hashRow cfg.keys b2) } hf
        exact ⟨this.1, this.2⟩
      | none =>
        rw [hlk] at hstep
        cases hstep
        exact ⟨hf, rfl⟩
    | some a2, some b2 =>
      by_cases hh : hashRow cfg.keys a2 = hashRow cfg.keys b2
      · rw [step_aligned cfg a2 b2 s (fun hc => absurd hc (by rw [hf]; exact Bool.false_ne_true)) hh] at hstep
        cases hstep
        have := alignedCase_not_first cfg a2 b2 { s with totalCount := s.totalCount + 1 } hf
        exact ⟨this.1, this.2⟩
      · rw [step_misaligned cfg a2 b2 s (fun hc => absurd hc (by rw [hf]; exact Bool.false_ne_true)) hh] at hstep
        cases hstep
        constructor
        · rw [misalignedCase, (probeCacheA_preserved _ _ _ _).1, (probeCacheB_preserved _ _ _ _).1]
          exact hf
        · rw [misalignedCase, (probeCacheA_preserved _ _ _ _).2.1, (probeCacheB_preserved _ _ _ _).2.1]

/-- C6 witness: the aligned-capture clause at a concrete first pair. -/
theorem header_capture_timing_witness :
    ∃ s2, step sampleCfg (some eqRow) (some eqRow) initState = Except.ok s2 ∧
      s2.first = false ∧
      (∃ m, s2.modifiedFields = some (List.replicate m false)) ∧
      (sampleCfg.noHeader = false → ∃ hrow, s2.headers = some hrow) :=
  (header_capture_timing sampleCfg initState eqRow eqRow (fun _ => by decide)).2.1 rfl rfl

/-- C6 counterexample: the first pair ever classified, when misaligned,
captures nothing: after it the header is still absent, the modified-field
vector is still unsized and the first flag is still set, contradicting
capture on the first classified pair regardless of outcome. -/
theorem header_capture_timing_counterexample :
    step sampleCfg (some [[49]]) (some [[50]]) initState =
      Except.ok { initState with
        totalCount := 1
        cacheA := [(hashRow sampleCfg.keys [[49]], [[49]])]
        cacheB := [(hashRow sampleCfg.keys [[50]], [[50]])] } ∧
    ({ initState with
        totalCount := 1
        cacheA := [(hashRow sampleCfg.keys [[49]], [[49]])]
        cacheB := [(hashRow sampleCfg.keys [[50]], [[50]])] } : LoopState).first = true ∧
    ({ initState with
        totalCount := 1
        cacheA := [(hashRow sampleCfg.keys [[49]], [[49]])]
        cacheB := [(hashRow sampleCfg.keys [[50]], [[50]])] } : LoopState).headers = none ∧
    ({ initState with
        totalCount := 1
        cacheA := [(hashRow sampleCfg.keys [[49]], [[49]])]
        cacheB := [(hashRow sampleCfg.keys [[50]], [[50]])] } : LoopState).modifiedFields = none :=
  ⟨by decide, rfl, rfl, rfl⟩

/-- C7 (amended): an out-of-range key or ignored-field index whose stored
value is a non-negative int (any user-supplied index of at least 1) makes
checkRow abort fatally with a message carrying the offending 1-based
index, and while the first flag is set the abort propagates out of the
step before any output is produced; a user-supplied index of 0 wraps
around to 2^64 - 1, is reinterpreted as the int -1, and is NOT caught by
this range check. -/
theorem out_of_range_aborts (cfg : Config) (rowA rowB : Row) (s : LoopState) (m : String) :
    ((∃ k ∈ cfg.keys, keyOutOfRange rowA rowB k = true) →
      ∃ k, k ∈ cfg.keys ∧ keyOutOfRange rowA rowB k = true ∧
        checkRow rowA rowB cfg =
          Except.error ("Key index " ++ toString ((k + 1) % 2 ^ 64) ++ " out of range")) ∧
    ((∀ k ∈ cfg.keys, keyOutOfRange rowA rowB k = false) →
      (∃ f ∈ cfg.ignoredFields, ignOutOfRange rowA rowB f = true) →
      ∃ f, f ∈ cfg.ignoredFields ∧ ignOutOfRange rowA rowB f = true ∧
        checkRow rowA rowB cfg =
          Except.error ("Ignored field " ++ toString (f + 1) ++ " out of range")) ∧
    (s.first = true → checkRow rowA rowB cfg = Except.error m →
      step cfg (some rowA) (some rowB) s = Except.error m) := by
  refine ⟨?_, ?_, ?_⟩
  · intro hex
    have hsome : (cfg.keys.find? (keyOutOfRange rowA rowB)).isSome := by
      rw [List.find?_isSome]
      obtain ⟨k, hk, hp⟩ := hex
      exact ⟨k, hk, hp⟩
    obtain ⟨k0, hfind⟩ := Option.isSome_iff_exists.mp hsome
    refine ⟨k0, List.mem_of_find?_eq_some hfind, List.find?_some hfind, ?_⟩
    unfold checkRow
    rw [hfind]
  · intro hnone hex
    have hkeysnone : cfg.keys.find? (keyOutOfRange rowA rowB) = none := by
      rw [List.find?_eq_none]
      intro k hk
      rw [hnone k hk]
      exact Bool.false_ne_true
    have hsome : (cfg.ignoredFields.find? (ignOutOfRange rowA rowB)).isSome := by
      rw [List.find?_isSome]
      obtain ⟨f, hf, hp⟩ := hex
      exact ⟨f, hf, hp⟩
    obtain ⟨f0, hfind⟩ := Option.isSome_iff_exists.mp hsome
    refine ⟨f0, List.mem_of_find?_eq_some hfind, List.find?_some hfind, ?_⟩
    unfold checkRow
    rw [hkeysnone, hfind]
  · intro hf hcheck
    simp [step, rowOrNil, hf, hcheck]

/-- C7 witness: key index 3 (stored 2) against one-field rows. -/
theorem out_of_range_aborts_witness :
    (∃ k, k ∈ [(2 : Nat)] ∧ keyOutOfRange [[120]] [[121]] k = true ∧
      checkRow [[120]] [[121]]
          { keys := [2], ignoredFields := [], noHeader := false,
            format := 1, symbol := 124, common := false } =
        Except.error ("Key index " ++ toString ((k + 1) % 2 ^ 64) ++ " out of range")) ∧
    step { keys := [2], ignoredFields := [], noHeader := false,
            format := 1, symbol := 124, common := false }
        (some [[120]]) (some [[121]]) initState =
      Except.error ("Key index 3 out of range") :=
  ⟨(out_of_range_aborts
      { keys := [2], ignoredFields := [], noHeader := false,
        format := 1, symbol := 124, common := false }
      [[120]] [[121]] initState "Key index 3 out of range").1
        ⟨2, by decide, by decide⟩,
   (out_of_range_aborts
      { keys := [2], ignoredFields := [], noHeader := false,
        format := 1, symbol := 124, common := false }
      [[120]] [[121]] initState "Key index 3 out of range").2.2 rfl (by decide)⟩

/-- C7 counterexample: a user-supplied ignored-field index of 0 is out of
range for every row, yet the program does not abort at all: the index is
stored as the int -1, the range check never fires, and the run completes
with exit status 0. -/
theorem out_of_range_aborts_counterexample :
    toIgnoredFields [0] = [-1] ∧
    runAborts ignZeroCfg [[[120]]] [[[120]]] = false ∧
    runExitCode ignZeroCfg [[[120]]] [[[120]]] = 0 :=
  ⟨by decide, by decide, by decide⟩

/-- C10: when input A is empty and input B is not (or symmetrically), the
first loop iteration calls checkRow with a nil row of length 0, so any
key whose stored int value is non-negative is out of range: the run
aborts with the fatal Key-index-out-of-range message instead of
classifying the non-empty input's rows as pure additions or removals,
and the abort happens on the very first step, before any delta row is
emitted. -/
theorem one_empty_input_aborts (cfg : Config) (r : Row) (rs : List Row)
    (hkey : ∃ k ∈ cfg.keys, 0 ≤ uint64ToInt k) :
    (∃ msg, run cfg [] (r :: rs) = Except.error msg ∧
      step cfg none (some r) initState = Except.error msg ∧
      ∃ k ∈ cfg.keys, msg = "Key index " ++ toString ((k + 1) % 2 ^ 64) ++ " out of range") ∧
    (∃ msg, run cfg (r :: rs) [] = Except.error msg ∧
      step cfg (some r) none initState = Except.error msg ∧
      ∃ k ∈ cfg.keys, msg = "Key index " ++ toString ((k + 1) % 2 ^ 64) ++ " out of range") := by
  obtain ⟨k, hk, hpos⟩ := hkey
  constructor
  · have hsome : (cfg.keys.find? (keyOutOfRange [] r)).isSome := by
      rw [List.find?_isSome]
      refine ⟨k, hk, ?_⟩
      unfold keyOutOfRange
      simp only [List.length_nil, Nat.cast_zero, Bool.or_eq_true, decide_eq_true_eq]
      exact Or.inl hpos
    obtain ⟨k0, hfind⟩ := Option.isSome_iff_exists.mp hsome
    have hcheck : checkRow [] r cfg =
        Except.error ("Key index " ++ toString ((k0 + 1) % 2 ^ 64) ++ " out of range") := by
      unfold checkRow
      rw [hfind]
    have hstep : step cfg none (some r) initState =
        Except.error ("Key index " ++ toString ((k0 + 1) % 2 ^ 64) ++ " out of range") := by
      simp [step, rowOrNil, initState, hcheck]
    refine ⟨_, ?_, hstep, k0, List.mem_of_find?_eq_some hfind, rfl⟩
    simp [run, runLoop, runLoopB, hstep, Except.bind, Except.map]
  · have hsome : (cfg.keys.find? (keyOutOfRange r [])).isSome := by
      rw [List.find?_isSome]
      refine ⟨k, hk, ?_⟩
      unfold keyOutOfRange
      simp only [List.length_nil, Nat.cast_zero, Bool.or_eq_true, decide_eq_true_eq]
      exact Or.inr hpos
    obtain ⟨k0, hfind⟩ := Option.isSome_iff_exists.mp hsome
    have hcheck : checkRow r [] cfg =
        Except.error ("Key index " ++ toString ((k0 + 1) % 2 ^ 64) ++ " out of range") := by
      unfold checkRow
      rw [hfind]
    have hstep : step cfg (some r) none initState =
        Except.error ("Key index " ++ toString ((k0 + 1) % 2 ^ 64) ++ " out of range") := by
      simp [step, rowOrNil, initState, hcheck]
    refine ⟨_, ?_, hstep, k0, List.mem_of_find?_eq_some hfind, rfl⟩
    simp [run, runLoop, hstep, Except.bind, Except.map]

/-- C10 witness: key field 1, one non-empty input of a single row. -/
theorem one_empty_input_aborts_witness :
    (∃ msg, run sampleCfg [] ([[49]] :: []) = Except.error msg ∧
      step sampleCfg none (some [[49]]) initState = Except.error msg ∧
      ∃ k ∈ sampleCfg.keys, msg = "Key index " ++ toString ((k + 1) % 2 ^ 64) ++ " out of range") ∧
    (∃ msg, run sampleCfg ([[49]] :: []) [] = Except.error msg ∧
      step sampleCfg (some [[49]]) none initState = Except.error msg ∧
      ∃ k ∈ sampleCfg.keys, msg = "Key index " ++ toString ((k + 1) % 2 ^ 64) ++ " out of range") :=
  one_empty_input_aborts sampleCfg [[49]] [] ⟨0, by decide, by decide⟩

/-- C8 (amended): on the end-to-end example in the piped format the run
emits exactly the modified row whose changed field carries the piped
encoding 30|-|31 (the separator triple symbol,minus,symbol), the pure
removal of Dana, the pure addition of Carol, plus the unchanged Bob row
exactly when unchanged emission is enabled, and the final counters are
removed=1, added=1, modified=1 with exit status 1. -/
theorem example_run :
    runOutput sampleCfg inputA8 inputB8 =
      [[[35], strBytes "1", strBytes "Alice", strBytes "30|-|31"],
       delta [strBytes "4", strBytes "Dana", strBytes "40"] 45,
       delta [strBytes "3", strBytes "Carol", strBytes "22"] 43] ∧
    runOutput sampleCfgCommon inputA8 inputB8 =
      [delta [strBytes "2", strBytes "Bob", strBytes "25"] 61,
       [[35], strBytes "1", strBytes "Alice", strBytes "30|-|31"],
       delta [strBytes "4", strBytes "Dana", strBytes "40"] 45,
       delta [strBytes "3", strBytes "Carol", strBytes "22"] 43] ∧
    runRemoved sampleCfg inputA8 inputB8 = 1 ∧
    runAdded sampleCfg inputA8 inputB8 = 1 ∧
    runModified sampleCfg inputA8 inputB8 = 1 ∧
    runExitCode sampleCfg inputA8 inputB8 = 1 :=
  ⟨by decide, by decide, by decide, by decide, by decide, by decide⟩

/-- C8 counterexample: the claimed two-value piped form 30|31 is not what
the run emits; the modified field carries 30|-|31, so no emitted row
equals the claimed row '# 1 Alice 30|31'. -/
theorem example_run_counterexample :
    runOutput sampleCfg inputA8 inputB8 =
      [[[35], strBytes "1", strBytes "Alice", strBytes "30|-|31"],
       delta [strBytes "4", strBytes "Dana", strBytes "40"] 45,
       delta [strBytes "3", strBytes "Carol", strBytes "22"] 43] ∧
    (List.filter (fun row => row == [[35], strBytes "1", strBytes "Alice", strBytes "30|31"])
      (runOutput sampleCfg inputA8 inputB8)) = [] :=
  ⟨by decide, by decide⟩

theorem foldl_aeStep1_fst (rowA rowB : Row) (cfg : Config) (maxLen : Nat)
    (l : List Nat) (st : Bool × List Field × Option (List Bool)) :
    (l.foldl (aeStep1 rowA rowB cfg maxLen) st).1 =
      (st.1 && l.all (fun i => ignoredContains cfg i || rowA.getD i [] == rowB.getD i [])) := by
  induction l generalizing st with
  | nil => simp
  | cons i is ih =>
    rw [List.foldl_cons, ih, aeStep1_fst, List.all_cons, Bool.and_assoc]

theorem set_true_any (w : List Bool) (i : Nat) (hi : i < w.length) :
    (w.set i true).any (fun x => x) = true := by
  rw [List.any_eq_true]
  refine ⟨true, ?_, rfl⟩
  have hget : (w.set i true)[i]? = some true := List.getElem?_set_eq_of_lt true hi
  exact List.getElem?_mem hget

theorem replicate_false_any (n : Nat) :
    (List.replicate n false).any (fun x => x) = false := by
  rw [Bool.eq_false_iff]
  intro hc
  rw [List.any_eq_true] at hc
  obtain ⟨x, hmem, hx⟩ := hc
  rw [List.eq_of_mem_replicate hmem] at hx
  exact Bool.false_ne_true hx

theorem update_any (w : List Bool) (i : Nat) (hany : w.any (fun x => x) = true) :
    ∃ w2, update (some w) i = some w2 ∧ w2.length = w.length ∧ w2.any (fun x => x) = true := by
  unfold update
  by_cases hi : i < w.length
  · exact ⟨w.set i true, by simp [hi], by simp, set_true_any w i hi⟩
  · exact ⟨w, by simp [hi], rfl, hany⟩

theorem aeStep1_mf_shape (rowA rowB : Row) (cfg : Config) (maxLen : Nat)
    (st : Bool × List Field × Option (List Bool)) (i : Nat) :
    (aeStep1 rowA rowB cfg maxLen st i).2.2 = update st.2.2 i ∨
    (aeStep1 rowA rowB cfg maxLen st i).2.2 = st.2.2 := by
  unfold aeStep1
  by_cases h1 : (!ignoredContains cfg i && !(rowA.getD i [] == rowB.getD i [])) = true
  · rw [if_pos h1]
    exact Or.inl rfl
  · rw [if_neg h1]
    by_cases h2 : (!st.1) = true
    · rw [if_pos h2]
      exact Or.inr rfl
    · rw [if_neg h2]
      exact Or.inr rfl

theorem foldl_aeStep1_any (rowA rowB : Row) (cfg : Config) (maxLen : Nat)
    (l : List Nat) (st : Bool × List Field × Option (List Bool)) (w : List Bool)
    (hw : st.2.2 = some w) (hany : w.any (fun x => x) = true) :
    ∃ w2, (l.foldl (aeStep1 rowA rowB cfg maxLen) st).2.2 = some w2 ∧
      w2.any (fun x => x) = true := by
  induction l generalizing st w with
  | nil => exact ⟨w, hw, hany⟩
  | cons i is ih =>
    rw [List.foldl_cons]
    rcases aeStep1_mf_shape rowA rowB cfg maxLen st i with hsh | hsh
    · rw [hw] at hsh
      obtain ⟨w2, hup, _, hany2⟩ := update_any w i hany
      rw [hup] at hsh
      exact ih _ _ hsh hany2
    · rw [hw] at hsh
      exact ih _ _ hsh hany

theorem aeStep1_mf_of_flip (rowA rowB : Row) (cfg : Config) (maxLen : Nat)
    (st : Bool × List Field × Option (List Bool)) (i : Nat)
    (hst : st.1 = true) (hres : (aeStep1 rowA rowB cfg maxLen st i).1 = false) :
    (aeStep1 rowA rowB cfg maxLen st i).2.2 = update st.2.2 i := by
  unfold aeStep1 at hres ⊢
  by_cases h1 : (!ignoredContains cfg i && !(rowA.getD i [] == rowB.getD i [])) = true
  · rw [if_pos h1]
  · rw [if_neg h1] at hres ⊢
    rw [if_neg (by simp [hst])] at hres
    rw [hst] at hres
    exact absurd hres (by simp)

theorem foldl_aeStep1_mark (rowA rowB : Row) (cfg : Config) (maxLen : Nat)
    (l : List Nat) (st : Bool × List Field × Option (List Bool)) (w : List Bool) (n : Nat)
    (hst : st.1 = true) (hw : st.2.2 = some w) (hlen : w.length = n) (hl : ∀ i ∈ l, i < n)
    (hfalse : (l.foldl (aeStep1 rowA rowB cfg maxLen) st).1 = false) :
    ∃ w2, (l.foldl (aeStep1 rowA rowB cfg maxLen) st).2.2 = some w2 ∧
      w2.any (fun x => x) = true := by
  induction l generalizing st w with
  | nil =>
    rw [List.foldl_nil] at hfalse
    rw [hst] at hfalse
    exact absurd hfalse (by simp)
  | cons i is ih =>
    rw [List.foldl_cons] at hfalse ⊢
    cases hs : (aeStep1 rowA rowB cfg maxLen st i).1
    · have hmf := aeStep1_mf_of_flip rowA rowB cfg maxLen st i hst hs
      rw [hw] at hmf
      have hi : i < n := hl i (List.mem_cons_self i is)
      rw [← hlen] at hi
      have hup : update (some w) i = some (w.set i true) := by
        simp only [update]
        rw [if_pos hi]
      rw [hup] at hmf
      exact foldl_aeStep1_any rowA rowB cfg maxLen is _ _ hmf (set_true_any w i hi)
    · have hskip := aeStep1_skip rowA rowB cfg maxLen st i hs
      rw [hskip] at hfalse ⊢
      exact ih st w hst hw hlen (fun j hj => hl j (List.mem_cons_of_mem i hj)) hfalse

theorem update_getD_ne (mf : Option (List Bool)) (i j : Nat) (hij : i ≠ j) :
    ((update mf i).getD []).getD j false = ((mf.getD []).getD j false) := by
  cases mf with
  | none => rfl
  | some w =>
    simp only [update]
    by_cases hi : i < w.length
    · rw [if_pos hi]
      simp only [Option.getD_some]
      rw [List.getD_eq_getElem?_getD, List.getD_eq_getElem?_getD, List.getElem?_set_ne hij]
    · rw [if_neg hi]

theorem aeStep1_getD_ignored (rowA rowB : Row) (cfg : Config) (maxLen : Nat)
    (st : Bool × List Field × Option (List Bool)) (i j : Nat)
    (hj : ignoredContains cfg j = true)
    (hp : (((st.2.2).getD []).getD j false) = false) :
    ((((aeStep1 rowA rowB cfg maxLen st i).2.2).getD []).getD j false) = false := by
  unfold aeStep1
  by_cases h1 : (!ignoredContains cfg i && !(rowA.getD i [] == rowB.getD i [])) = true
  · rw [if_pos h1]
    have hij : i ≠ j := by
      intro he
      rw [he] at h1
      rw [hj] at h1
      simp at h1
    simp only
    rw [update_getD_ne _ _ _ hij]
    exact hp
  · rw [if_neg h1]
    by_cases h2 : (!st.1) = true
    · rw [if_pos h2]
      exact hp
    · rw [if_neg h2]
      exact hp

theorem foldl_aeStep1_getD_ignored (rowA rowB : Row) (cfg : Config) (maxLen : Nat)
    (l : List Nat) (st : Bool × List Field × Option (List Bool)) (j : Nat)
    (hj : ignoredContains cfg j = true)
    (hp : (((st.2.2).getD []).getD j false) = false) :
    ((((l.foldl (aeStep1 rowA rowB cfg maxLen) st).2.2).getD []).getD j false) = false := by
  induction l generalizing st with
  | nil => exact hp
  | cons i is ih =>
    rw [List.foldl_cons]
    exact ih _ (aeStep1_getD_ignored rowA rowB cfg maxLen st i j hj hp)

theorem aeStep2_getD_ignored (rowA rowB : Row) (cfg : Config) (longest : Nat)
    (st : List Field × Option (List Bool)) (i j : Nat)
    (hj : ignoredContains cfg j = true)
    (hp : (((st.2).getD []).getD j false) = false) :
    ((((aeStep2 rowA rowB cfg longest st i).2).getD []).getD j false) = false := by
  unfold aeStep2
  by_cases h1 : ignoredContains cfg i = true
  · rw [if_pos h1]
    exact hp
  · rw [if_neg h1]
    have hij : i ≠ j := by
      intro he
      rw [he, hj] at h1
      exact h1 rfl
    by_cases h2 : longest = 1
    · rw [if_pos h2]
      simp only
      rw [update_getD_ne _ _ _ hij]
      exact hp
    · rw [if_neg h2]
      by_cases h3 : longest = 2
      · rw [if_pos h3]
        simp only
        rw [update_getD_ne _ _ _ hij]
        exact hp
      · rw [if_neg h3]
        exact hp

theorem foldl_aeStep2_getD_ignored (rowA rowB : Row) (cfg : Config) (longest : Nat)
    (l : List Nat) (st : List Field × Option (List Bool)) (j : Nat)
    (hj : ignoredContains cfg j = true)
    (hp : (((st.2).getD []).getD j false) = false) :
    ((((l.foldl (aeStep2 rowA rowB cfg longest) st).2).getD []).getD j false) = false := by
  induction l generalizing st with
  | nil => exact hp
  | cons i is ih =>
    rw [List.foldl_cons]
    exact ih _ (aeStep2_getD_ignored rowA rowB cfg longest st i j hj hp)

theorem replicate_getD_false (n j : Nat) :
    (List.replicate n false).getD j false = false := by
  rw [List.getD_eq_getElem?_getD, List.getElem?_replicate]
  by_cases hj : j < n
  · rw [if_pos hj]
    rfl
  · rw [if_neg hj]
    rfl

theorem areEquals_same_formula (rowA rowB : Row) (cfg : Config) (mf : Option (List Bool)) :
    (areEquals rowA rowB cfg mf).same =
      ((rowA.length == rowB.length) &&
        (List.range (min rowA.length rowB.length)).all
          (fun i => ignoredContains cfg i || rowA.getD i [] == rowB.getD i [])) := by
  unfold areEquals
  simp only
  rw [foldl_aeStep1_fst]

/-- C3 (amended): the comparator never marks an ignored position; for
rows of EQUAL length it reports the pair equal exactly when no field
position was marked as changed (so a pair of equal length whose only
differing positions are ignored is classified as unchanged); but rows of
different lengths are always reported unequal, even when every position
beyond the shorter length is ignored, in which case no position is
marked either. -/
theorem comparator_equality (rowA rowB : Row) (cfg : Config) (n : Nat)
    (hn : max rowA.length rowB.length ≤ n) :
    (∀ j, ignoredContains cfg j = true →
      (((areEquals rowA rowB cfg (some (List.replicate n false))).mf.getD []).getD j false)
        = false) ∧
    (rowA.length = rowB.length →
      ((areEquals rowA rowB cfg (some (List.replicate n false))).same = true ↔
        (areEquals rowA rowB cfg (some (List.replicate n false))).mf =
          some (List.replicate n false))) ∧
    (rowA.length ≠ rowB.length →
      (areEquals rowA rowB cfg (some (List.replicate n false))).same = false) := by
  refine ⟨?_, ?_, ?_⟩
  · intro j hj
    unfold areEquals
    simp only
    apply foldl_aeStep2_getD_ignored _ _ _ _ _ _ _ hj
    apply foldl_aeStep1_getD_ignored _ _ _ _ _ _ _ hj
    simp only [Option.getD_some]
    exact replicate_getD_false n j
  · intro hlen
    constructor
    · intro hsame
      exact congrArg AEResult.mf (areEquals_same_spec _ _ _ _ hsame).1
    · intro hmf
      by_contra hc
      have hcf : (areEquals rowA rowB cfg (some (List.replicate n false))).same = false := by
        cases hx : (areEquals rowA rowB cfg (some (List.replicate n false))).same
        · rfl
        · exact absurd hx hc
      unfold areEquals at hcf hmf
      simp only at hcf hmf
      have hmm : max rowA.length rowB.length - min rowA.length rowB.length = 0 := by omega
      rw [hmm] at hmf
      simp only [List.range_zero, List.map_nil, List.foldl_nil] at hmf
      obtain ⟨w2, hw2, hany⟩ :=
        foldl_aeStep1_mark rowA rowB cfg (max rowA.length rowB.length)
          (List.range (min rowA.length rowB.length)) _ (List.replicate n false) n
          (by simp [hlen]) rfl (List.length_replicate _ _)
          (by
            intro i hi
            have h1 := List.mem_range.mp hi
            have h2 : min rowA.length rowB.length ≤ max rowA.length rowB.length := min_le_max
            omega)
          hcf
      rw [hmf] at hw2
      have hw2e : List.replicate n false = w2 := by
        injection hw2
      rw [← hw2e] at hany
      rw [replicate_false_any n] at hany
      exact Bool.false_ne_true hany
  · intro hne
    rw [areEquals_same_formula]
    have hb : (rowA.length == rowB.length) = false := by
      simp [hne]
    rw [hb, Bool.false_and]

/-- C3 witness: equal-length rows differing in one non-ignored field. -/
theorem comparator_equality_witness :
    (∀ j, ignoredContains sampleCfg j = true →
      (((areEquals [[97], [98]] [[97], [99]] sampleCfg
          (some (List.replicate 2 false))).mf.getD []).getD j false) = false) ∧
    (([[97], [98]] : Row).length = ([[97], [99]] : Row).length →
      ((areEquals [[97], [98]] [[97], [99]] sampleCfg (some (List.replicate 2 false))).same = true ↔
        (areEquals [[97], [98]] [[97], [99]] sampleCfg (some (List.replicate 2 false))).mf =
          some (List.replicate 2 false))) ∧
    (([[97], [98]] : Row).length ≠ ([[97], [99]] : Row).length →
      (areEquals [[97], [98]] [[97], [99]] sampleCfg (some (List.replicate 2 false))).same = false) :=
  comparator_equality [[97], [98]] [[97], [99]] sampleCfg 2 (by decide)

/-- C3 counterexample: a one-field row against a two-field row whose only
differing position (the ragged tail position 1) is ignored: no position is
marked as changed, yet the comparator reports the pair as unequal, so
equality is NOT equivalent to no-position-marked and the pair is
classified as a modification although it differs only in an ignored
field. -/
theorem comparator_equality_counterexample :
    ignoredContains ignOneCfg 1 = true ∧
    (areEquals [[97]] [[97], [98]] ignOneCfg (some [false, false])).same = false ∧
    (areEquals [[97]] [[97], [98]] ignOneCfg (some [false, false])).mf = some [false, false] :=
  ⟨by decide, by decide, by decide⟩

theorem checkRow_ok (cfg : Config) (a b : Row) (ha : rowOK cfg a) (hb : rowOK cfg b) :
    checkRow a b cfg = Except.ok () := by
  unfold checkRow
  have h1 : cfg.keys.find? (keyOutOfRange a b) = none := by
    rw [List.find?_eq_none]
    intro k hk
    unfold keyOutOfRange
    simp only [Bool.or_eq_true, decide_eq_true_eq, not_or, not_le]
    exact ⟨ha.1 k hk, hb.1 k hk⟩
  rw [h1]
  have h2 : cfg.ignoredFields.find? (ignOutOfRange a b) = none := by
    rw [List.find?_eq_none]
    intro f hf
    unfold ignOutOfRange
    simp only [Bool.or_eq_true, decide_eq_true_eq, not_or, not_le]
    exact ⟨ha.2 f hf, hb.2 f hf⟩
  rw [h2]

theorem INVhalf_same_extend (hash : Row → Nat) (D a b : List Row) (x : Row)
    (cA : List (Nat × Row))
    (hinj : ∀ u ∈ D, ∀ v ∈ D, hash u = hash v → u = v)
    (haD : ∀ r ∈ a, r ∈ D) (hxD : x ∈ D) (hxa : ¬ x ∈ a)
    (hhalf : INVhalf hash a b cA) :
    INVhalf hash (a ++ [x]) (b ++ [x]) cA := by
  constructor
  · intro h r hl
    obtain ⟨hra, hhr, hnb⟩ := hhalf.1 h r hl
    refine ⟨List.mem_append_left _ hra, hhr, ?_⟩
    rw [List.map_append, List.mem_append]
    rintro (hc | hc)
    · exact hnb hc
    · simp only [List.map_cons, List.map_nil, List.mem_singleton] at hc
      have hrx : r = x := hinj r (haD r hra) x hxD (by rw [hhr, hc])
      rw [hrx] at hra
      exact hxa hra
  · intro r hr hnb
    rw [List.mem_append] at hr
    rcases hr with hr | hr
    · apply hhalf.2 r hr
      intro hc
      apply hnb
      rw [List.map_append, List.mem_append]
      exact Or.inl hc
    · simp only [List.mem_singleton] at hr
      exfalso
      apply hnb
      rw [hr, List.map_append, List.mem_append]
      right
      simp

theorem INVhalf_mis_extend (hash : Row → Nat) (D a b : List Row) (x y : Row)
    (cA cB cA2 : List (Nat × Row))
    (hinj : ∀ u ∈ D, ∀ v ∈ D, hash u = hash v → u = v)
    (haD : ∀ r ∈ a, r ∈ D) (hbD : ∀ r ∈ b, r ∈ D)
    (hxD : x ∈ D) (hyD : y ∈ D)
    (hxa : ¬ x ∈ a) (hxy : hash x ≠ hash y)
    (hhalfA : INVhalf hash a b cA) (hhalfB : INVhalf hash b a cB)
    (hA2 : ∀ h, cacheLookup cA2 h =
      if h = hash y then none
      else if h = hash x ∧ cacheLookup cB (hash x) = none then some x
      else cacheLookup cA h) :
    INVhalf hash (a ++ [x]) (b ++ [y]) cA2 := by
  constructor
  · intro h r hl
    rw [hA2] at hl
    by_cases hy : h = hash y
    · rw [if_pos hy] at hl
      exact absurd hl (by simp)
    · rw [if_neg hy] at hl
      by_cases hx : h = hash x ∧ cacheLookup cB (hash x) = none
      · rw [if_pos hx] at hl
        have hrx : r = x := by
          injection hl with hl2
          exact hl2.symm
        subst hrx
        refine ⟨List.mem_append_right _ (by simp), hx.1.symm, ?_⟩
        rw [hx.1, List.map_append, List.mem_append]
        rintro (hc | hc)
        · rw [List.mem_map] at hc
          obtain ⟨z, hz, hhz⟩ := hc
          have hzx : z = r := hinj z (hbD z hz) r hxD hhz
          rw [hzx] at hz
          have hnone : ¬ cacheLookup cB (hash r) = some r := by
            rw [hx.2]
            simp
          apply hnone
          apply hhalfB.2 r hz
          rw [List.mem_map]
          rintro ⟨w, hw, hhw⟩
          have hwr : w = r := hinj w (haD w hw) r hxD hhw
          rw [hwr] at hw
          exact hxa hw
        · simp only [List.map_cons, List.map_nil, List.mem_singleton] at hc
          exact hxy hc
      · rw [if_neg hx] at hl
        obtain ⟨hra, hhr, hnb⟩ := hhalfA.1 h r hl
        refine ⟨List.mem_append_left _ hra, hhr, ?_⟩
        rw [List.map_append, List.mem_append]
        rintro (hc | hc)
        · exact hnb hc
        · simp only [List.map_cons, List.map_nil, List.mem_singleton] at hc
          exact hy hc
  · intro r hr hnb
    have hnby : hash r ≠ hash y := by
      intro hc
      apply hnb
      rw [List.map_append, List.mem_append]
      right
      simp [hc]
    have hnbb : ¬ hash r ∈ b.map hash := by
      intro hc
      apply hnb
      rw [List.map_append, List.mem_append]
      exact Or.inl hc
    rw [List.mem_append] at hr
    rcases hr with hr | hr
    · have hnrx : hash r ≠ hash x := by
        intro hc
        have hrx : r = x := hinj r (haD r hr) x hxD hc
        rw [hrx] at hr
        exact hxa hr
      rw [hA2, if_neg hnby, if_neg (by rintro ⟨hc, _⟩; exact hnrx hc)]
      exact hhalfA.2 r hr hnbb
    · simp only [List.mem_singleton] at hr
      subst hr
      rw [hA2, if_neg hnby]
      have hcond : cacheLookup cB (hash r) = none := by
        cases hlk : cacheLookup cB (hash r) with
        | none => rfl
        | some altB =>
          obtain ⟨hab, hhb, _⟩ := hhalfB.1 _ _ hlk
          have : altB = r := hinj altB (hbD altB hab) r hxD hhb
          rw [this] at hab
          exfalso
          apply hnbb
          rw [List.mem_map]
          exact ⟨r, hab, rfl⟩
      rw [if_pos ⟨rfl, hcond⟩]

theorem alignedCase_same_preserves (cfg : Config) (a b : Row) (s : LoopState)
    (hsame : (areEquals a b cfg s.modifiedFields).same = true) :
    (alignedCase cfg a b s).cacheA = s.cacheA ∧
    (alignedCase cfg a b s).cacheB = s.cacheB ∧
    (alignedCase cfg a b s).addedCount = s.addedCount ∧
    (alignedCase cfg a b s).removedCount = s.removedCount ∧
    (alignedCase cfg a b s).modifiedCount = s.modifiedCount := by
  rw [alignedCase_same _ _ _ _ hsame]
  cases hf : s.first <;> cases hc : cfg.common <;> simp [hf, hc]

theorem c1_step (cfg : Config) (D : List Row) (x y : Row) (a b : List Row) (s : LoopState)
    (hinj : ∀ u ∈ D, ∀ v ∈ D, hashRow cfg.keys u = hashRow cfg.keys v → u = v)
    (haD : ∀ r ∈ a, r ∈ D) (hbD : ∀ r ∈ b, r ∈ D) (hxD : x ∈ D) (hyD : y ∈ D)
    (hxa : ¬ x ∈ a) (hyb : ¬ y ∈ b)
    (hok : ∀ r ∈ D, rowOK cfg r)
    (hinvA : INVhalf (hashRow cfg.keys) a b s.cacheA)
    (hinvB : INVhalf (hashRow cfg.keys) b a s.cacheB)
    (hadd : s.addedCount = 0) (hrem : s.removedCount = 0) (hmod : s.modifiedCount = 0) :
    ∃ s2, step cfg (some x) (some y) s = Except.ok s2 ∧
      INVhalf (hashRow cfg.keys) (a ++ [x]) (b ++ [y]) s2.cacheA ∧
      INVhalf (hashRow cfg.keys) (b ++ [y]) (a ++ [x]) s2.cacheB ∧
      s2.addedCount = 0 ∧ s2.removedCount = 0 ∧ s2.modifiedCount = 0 := by
  have hcheck : checkRow x y cfg = Except.ok () := checkRow_ok _ _ _ (hok x hxD) (hok y hyD)
  by_cases hal : hashRow cfg.keys x = hashRow cfg.keys y
  · have hxy : x = y := hinj x hxD y hyD hal
    subst hxy
    rw [step_aligned cfg x x s (fun _ => hcheck) rfl]
    have hsame : (areEquals x x cfg
        ({ s with totalCount := s.totalCount + 1 } : LoopState).modifiedFields).same = true := by
      rw [areEquals_self]
    have hpres := alignedCase_same_preserves cfg x x
      { s with totalCount := s.totalCount + 1 } hsame
    dsimp only at hpres
    refine ⟨_, rfl, ?_, ?_, ?_, ?_, ?_⟩
    · rw [hpres.1]
      exact INVhalf_same_extend _ D a b x s.cacheA hinj haD hxD hxa hinvA
    · rw [hpres.2.1]
      exact INVhalf_same_extend _ D b a x s.cacheB hinj hbD hxD hyb hinvB
    · rw [hpres.2.2.1]
      exact hadd
    · rw [hpres.2.2.2.1]
      exact hrem
    · rw [hpres.2.2.2.2]
      exact hmod
  · rw [step_misaligned cfg x y s (fun _ => hcheck) hal]
    have hyx : hashRow cfg.keys y ≠ hashRow cfg.keys x := Ne.symm hal
    rw [misalignedCase]
    cases hlkB : cacheLookup s.cacheB (hashRow cfg.keys x) with
    | none =>
      have hsb := probeCacheB_miss cfg x (hashRow cfg.keys x)
        { s with totalCount := s.totalCount + 1 } hlkB
      rw [deepCopy_eq] at hsb
      dsimp only at hsb
      rw [hsb]
      cases hlkA : cacheLookup s.cacheA (hashRow cfg.keys y) with
      | none =>
        have hsa := probeCacheA_miss cfg y (hashRow cfg.keys y)
          { s with
            totalCount := s.totalCount + 1
            warningsA := if (cacheLookup s.cacheA (hashRow cfg.keys x)).isSome then s.warningsA + 1
              else s.warningsA
            cacheA := cacheInsert s.cacheA (hashRow cfg.keys x) x }
          (by
            dsimp only
            rw [cacheLookup_insert_ne _ _ _ _ hyx, hlkA])
        rw [deepCopy_eq] at hsa
        dsimp only at hsa
        rw [hsa]
        refine ⟨_, rfl, ?_, ?_, hadd, hrem, hmod⟩
        · apply INVhalf_mis_extend (hashRow cfg.keys) D a b x y s.cacheA s.cacheB _
            hinj haD hbD hxD hyD hxa hal hinvA hinvB
          intro h
          dsimp only
          by_cases hy : h = hashRow cfg.keys y
          · rw [if_pos hy, hy, cacheLookup_insert_ne _ _ _ _ hyx, hlkA]
          · rw [if_neg hy]
            by_cases hx : h = hashRow cfg.keys x
            · rw [if_pos ⟨hx, hlkB⟩, hx, cacheLookup_insert_self]
            · rw [if_neg (by rintro ⟨hc, -⟩; exact hx hc)]
              rw [cacheLookup_insert_ne _ _ _ _ hx]
        · apply INVhalf_mis_extend (hashRow cfg.keys) D b a y x s.cacheB s.cacheA _
            hinj hbD haD hyD hxD hyb hyx hinvB hinvA
          intro h
          dsimp only
          by_cases hx : h = hashRow cfg.keys x
          · rw [if_pos hx, hx, cacheLookup_insert_ne _ _ _ _ hal, hlkB]
          · rw [if_neg hx]
            by_cases hy : h = hashRow cfg.keys y
            · rw [if_pos ⟨hy, hlkA⟩, hy, cacheLookup_insert_self]
            · rw [if_neg (by rintro ⟨hc, -⟩; exact hy hc)]
              rw [cacheLookup_insert_ne _ _ _ _ hy]
      | some altA =>
        have haeq : y = altA := (hinj altA (haD altA (hinvA.1 _ _ hlkA).1) y hyD
          (hinvA.1 _ _ hlkA).2.1).symm
        subst haeq
        have hlkA2 : cacheLookup (cacheInsert s.cacheA (hashRow cfg.keys x) x)
            (hashRow cfg.keys y) = some y := by
          rw [cacheLookup_insert_ne _ _ _ _ hyx, hlkA]
        have hsame2 : (areEquals y y cfg
            ({ s with
              totalCount := s.totalCount + 1
              warningsA := if (cacheLookup s.cacheA (hashRow cfg.keys x)).isSome then s.warningsA + 1
                else s.warningsA
              cacheA := cacheInsert s.cacheA (hashRow cfg.keys x) x } : LoopState).modifiedFields).same
            = true := by
          rw [areEquals_self]
        have hsa := probeCacheA_found_same cfg y (hashRow cfg.keys y)
          { s with
            totalCount := s.totalCount + 1
            warningsA := if (cacheLookup s.cacheA (hashRow cfg.keys x)).isSome then s.warningsA + 1
              else s.warningsA
            cacheA := cacheInsert s.cacheA (hashRow cfg.keys x) x }
          y (by dsimp only; exact hlkA2) hsame2
        dsimp only at hsa
        rw [hsa]
        refine ⟨_, rfl, ?_, ?_, ?_, ?_, ?_⟩
        · apply INVhalf_mis_extend (hashRow cfg.keys) D a b x y s.cacheA s.cacheB _
            hinj haD hbD hxD hyD hxa hal hinvA hinvB
          intro h
          dsimp only
          by_cases hy : h = hashRow cfg.keys y
          · rw [if_pos hy, hy, cacheLookup_erase_self]
          · rw [if_neg hy]
            rw [cacheLookup_erase_ne _ _ _ hy]
            by_cases hx : h = hashRow cfg.keys x
            · rw [if_pos ⟨hx, hlkB⟩, hx, cacheLookup_insert_self]
            · rw [if_neg (by rintro ⟨hc, -⟩; exact hx hc)]
              rw [cacheLookup_insert_ne _ _ _ _ hx]
        · apply INVhalf_mis_extend (hashRow cfg.keys) D b a y x s.cacheB s.cacheA _
            hinj hbD haD hyD hxD hyb hyx hinvB hinvA
          intro h
          dsimp only
          by_cases hx : h = hashRow cfg.keys x
          · rw [if_pos hx, hx, hlkB]
          · rw [if_neg hx]
            by_cases hy : h = hashRow cfg.keys y
            · rw [if_neg (by rintro ⟨-, hc⟩; rw [hlkA] at hc; exact Option.noConfusion hc)]
            · rw [if_neg (by rintro ⟨hc, -⟩; exact hy hc)]
        · cases hcm : cfg.common <;> simp [hcm, hadd]
        · cases hcm : cfg.common <;> simp [hcm, hrem]
        · cases hcm : cfg.common <;> simp [hcm, hmod]
    | some altB =>
      have hbeq : x = altB := (hinj altB (hbD altB (hinvB.1 _ _ hlkB).1) x hxD
        (hinvB.1 _ _ hlkB).2.1).symm
      subst hbeq
      have hsame1 : (areEquals x x cfg
          ({ s with totalCount := s.totalCount + 1 } : LoopState).modifiedFields).same = true := by
        rw [areEquals_self]
      have hsb := probeCacheB_found_same cfg x (hashRow cfg.keys x)
        { s with totalCount := s.totalCount + 1 } x hlkB hsame1
      dsimp only at hsb
      rw [hsb]
      cases hlkA : cacheLookup s.cacheA (hashRow cfg.keys y) with
      | none =>
        have hsa := probeCacheA_miss cfg y (hashRow cfg.keys y)
          { s with
            totalCount := s.totalCount + 1
            cacheB := cacheErase s.cacheB (hashRow cfg.keys x)
            output := if cfg.common then s.output ++ [delta x 61] else s.output }
          (by dsimp only; exact hlkA)
        rw [deepCopy_eq] at hsa
        dsimp only at hsa
        rw [hsa]
        refine ⟨_, rfl, ?_, ?_, hadd, hrem, hmod⟩
        · apply INVhalf_mis_extend (hashRow cfg.keys) D a b x y s.cacheA s.cacheB _
            hinj haD hbD hxD hyD hxa hal hinvA hinvB
          intro h
          dsimp only
          by_cases hy : h = hashRow cfg.keys y
          · rw [if_pos hy, hy, hlkA]
          · rw [if_neg hy]
            by_cases hx : h = hashRow cfg.keys x
            · rw [if_neg (by rintro ⟨-, hc⟩; rw [hlkB] at hc; exact Option.noConfusion hc)]
            · rw [if_neg (by rintro ⟨hc, -⟩; exact hx hc)]
        · apply INVhalf_mis_extend (hashRow cfg.keys) D b a y x s.cacheB s.cacheA _
            hinj hbD haD hyD hxD hyb hyx hinvB hinvA
          intro h
          dsimp only
          by_cases hx : h = hashRow cfg.keys x
          · rw [if_pos hx, hx, cacheLookup_insert_ne _ _ _ _ hal, cacheLookup_erase_self]
          · rw [if_neg hx]
            by_cases hy : h = hashRow cfg.keys y
            · rw [if_pos ⟨hy, hlkA⟩, hy, cacheLookup_insert_self]
            · rw [if_neg (by rintro ⟨hc, -⟩; exact hy hc)]
              rw [cacheLookup_insert_ne _ _ _ _ hy, cacheLookup_erase_ne _ _ _ hx]
      | some altA =>
        have haeq : y = altA := (hinj altA (haD altA (hinvA.1 _ _ hlkA).1) y hyD
          (hinvA.1 _ _ hlkA).2.1).symm
        subst haeq
        have hsame2 : (areEquals y y cfg
            ({ s with
              totalCount := s.totalCount + 1
              cacheB := cacheErase s.cacheB (hashRow cfg.keys x)
              output := if cfg.common then s.output ++ [delta x 61] else s.output }
                : LoopState).modifiedFields).same = true := by
          rw [areEquals_self]
        have hsa := probeCacheA_found_same cfg y (hashRow cfg.keys y)
          { s with
            totalCount := s.totalCount + 1
            cacheB := cacheErase s.cacheB (hashRow cfg.keys x)
            output := if cfg.common then s.output ++ [delta x 61] else s.output }
          y (by dsimp only; exact hlkA) hsame2
        dsimp only at hsa
        rw [hsa]
        refine ⟨_, rfl, ?_, ?_, ?_, ?_, ?_⟩
        · apply INVhalf_mis_extend (hashRow cfg.keys) D a b x y s.cacheA s.cacheB _
            hinj haD hbD hxD hyD hxa hal hinvA hinvB
          intro h
          dsimp only
          by_cases hy : h = hashRow cfg.keys y
          · rw [if_pos hy, hy, cacheLookup_erase_self]
          · rw [if_neg hy]
            rw [cacheLookup_erase_ne _ _ _ hy]
            by_cases hx : h = hashRow cfg.keys x
            · rw [if_neg (by rintro ⟨-, hc⟩; rw [hlkB] at hc; exact Option.noConfusion hc)]
            · rw [if_neg (by rintro ⟨hc, -⟩; exact hx hc)]
        · apply INVhalf_mis_extend (hashRow cfg.keys) D b a y x s.cacheB s.cacheA _
            hinj hbD haD hyD hxD hyb hyx hinvB hinvA
          intro h
          dsimp only
          by_cases hx : h = hashRow cfg.keys x
          · rw [if_pos hx, hx, cacheLookup_erase_self]
          · rw [if_neg hx]
            rw [cacheLookup_erase_ne _ _ _ hx]
            by_cases hy : h = hashRow cfg.keys y
            · rw [if_neg (by rintro ⟨-, hc⟩; rw [hlkA] at hc; exact Option.noConfusion hc)]
            · rw [if_neg (by rintro ⟨hc, -⟩; exact hy hc)]
        · cases hcm : cfg.common <;> simp [hcm, hadd]
        · cases hcm : cfg.common <;> simp [hcm, hrem]
        · cases hcm : cfg.common <;> simp [hcm, hmod]

theorem c1_loop (cfg : Config) (D E : List Row)
    (hinj : ∀ u ∈ D, ∀ v ∈ D, hashRow cfg.keys u = hashRow cfg.keys v → u = v)
    (hok : ∀ r ∈ D, rowOK cfg r)
    (hE : ∀ r ∈ E, r ∈ D)
    (hDnodup : D.Nodup) (hEnodup : E.Nodup) :
    ∀ as bs a b s, D = a ++ as → E = b ++ bs → as.length = bs.length →
      INVhalf (hashRow cfg.keys) a b s.cacheA →
      INVhalf (hashRow cfg.keys) b a s.cacheB →
      s.addedCount = 0 → s.removedCount = 0 → s.modifiedCount = 0 →
      ∃ s2, runLoop cfg as bs s = Except.ok s2 ∧
        INVhalf (hashRow cfg.keys) D E s2.cacheA ∧
        INVhalf (hashRow cfg.keys) E D s2.cacheB ∧
        s2.addedCount = 0 ∧ s2.removedCount = 0 ∧ s2.modifiedCount = 0 := by
  intro as
  induction as with
  | nil =>
    intro bs a b s hDa hEb hlen hA hB hadd hrem hmod
    cases bs with
    | nil =>
      refine ⟨s, by simp [runLoop, runLoopB], ?_, ?_, hadd, hrem, hmod⟩
      · rw [List.append_nil] at hDa hEb
        rw [hDa, hEb]
        exact hA
      · rw [List.append_nil] at hDa hEb
        rw [hDa, hEb]
        exact hB
    | cons y bs => simp at hlen
  | cons x as ih =>
    intro bs a b s hDa hEb hlen hA hB hadd hrem hmod
    cases bs with
    | nil => simp at hlen
    | cons y bs =>
      have hxD : x ∈ D := by
        rw [hDa]
        exact List.mem_append_right _ (List.mem_cons_self x as)
      have hyE : y ∈ E := by
        rw [hEb]
        exact List.mem_append_right _ (List.mem_cons_self y bs)
      have hyD : y ∈ D := hE y hyE
      have haD : ∀ r ∈ a, r ∈ D := by
        intro r hr
        rw [hDa]
        exact List.mem_append_left _ hr
      have hbD : ∀ r ∈ b, r ∈ D := by
        intro r hr
        apply hE
        rw [hEb]
        exact List.mem_append_left _ hr
      have hxa : ¬ x ∈ a := by
        intro hc
        rw [hDa, List.nodup_append] at hDnodup
        exact hDnodup.2.2 hc (List.mem_cons_self x as)
      have hyb : ¬ y ∈ b := by
        intro hc
        rw [hEb, List.nodup_append] at hEnodup
        exact hEnodup.2.2 hc (List.mem_cons_self y bs)
      obtain ⟨s2, hstep, hA2, hB2, hadd2, hrem2, hmod2⟩ :=
        c1_step cfg D x y a b s hinj haD hbD hxD hyD hxa hyb hok hA hB hadd hrem hmod
      have hloop : runLoop cfg (x :: as) (y :: bs) s = runLoop cfg as bs s2 := by
        rw [runLoop, hstep]
        rfl
      rw [hloop]
      exact ih bs (a ++ [x]) (b ++ [y]) s2
        (by rw [hDa]; simp) (by rw [hEb]; simp) (by simpa using hlen)
        hA2 hB2 hadd2 hrem2 hmod2

/-- C1 (amended): diffing a dataset against a copy of itself, with the
rows of each input permuted arbitrarily, yields zero added, removed and
modified counts and exit status 0, PROVIDED the rows of the dataset have
pairwise distinct key hashes (no duplicate keys and no hash or
key-concatenation collisions) and every configured key and ignored-field
index is in range for every row. -/
theorem identity_diff (cfg : Config) (inA inB : List Row)
    (hperm : inA.Perm inB)
    (hnodup : (inA.map (hashRow cfg.keys)).Nodup)
    (hok : ∀ r ∈ inA, rowOK cfg r) :
    ∃ s, run cfg inA inB = Except.ok s ∧
      s.addedCount = 0 ∧ s.removedCount = 0 ∧ s.modifiedCount = 0 ∧ exitCode s = 0 := by
  have hDnodup : inA.Nodup := hnodup.of_map
  have hEnodup : inB.Nodup := (hperm.nodup_iff).mp hDnodup
  have hinj : ∀ u ∈ inA, ∀ v ∈ inA, hashRow cfg.keys u = hashRow cfg.keys v → u = v :=
    List.inj_on_of_nodup_map hnodup
  have hE : ∀ r ∈ inB, r ∈ inA := fun r hr => hperm.mem_iff.mpr hr
  have hlen : inA.length = inB.length := hperm.length_eq
  have hemptyA : INVhalf (hashRow cfg.keys) [] [] initState.cacheA := by
    constructor
    · intro h r hl
      exact absurd hl (by simp [initState, cacheLookup])
    · intro r hr
      exact absurd hr (List.not_mem_nil r)
  have hemptyB : INVhalf (hashRow cfg.keys) [] [] initState.cacheB := by
    constructor
    · intro h r hl
      exact absurd hl (by simp [initState, cacheLookup])
    · intro r hr
      exact absurd hr (List.not_mem_nil r)
  obtain ⟨s2, hloop, hA2, hB2, hadd, hrem, hmod⟩ :=
    c1_loop cfg inA inB hinj hok hE hDnodup hEnodup inA inB [] [] initState
      rfl rfl hlen hemptyA hemptyB rfl rfl rfl
  have hcAnil : s2.cacheA = [] := by
    apply eq_nil_of_cacheLookup_none
    intro k
    cases hx : cacheLookup s2.cacheA k with
    | none => rfl
    | some r =>
      obtain ⟨hra, hhash, hnb⟩ := hA2.1 _ _ hx
      exact absurd (by rw [List.mem_map]; exact ⟨r, hperm.mem_iff.mp hra, hhash⟩) hnb
  have hcBnil : s2.cacheB = [] := by
    apply eq_nil_of_cacheLookup_none
    intro k
    cases hx : cacheLookup s2.cacheB k with
    | none => rfl
    | some r =>
      obtain ⟨hrb, hhash, hnb⟩ := hB2.1 _ _ hx
      exact absurd (by rw [List.mem_map]; exact ⟨r, hE r hrb, hhash⟩) hnb
  refine ⟨drain s2, ?_, ?_, ?_, ?_, ?_⟩
  · rw [run, hloop]
    rfl
  · simp [drain, hcBnil, hadd]
  · simp [drain, hcAnil, hrem]
  · simp [drain, hmod]
  · simp [exitCode, drain, hcAnil, hcBnil, hadd, hrem, hmod]

/-- C1 witness: a one-row dataset against itself. -/
theorem identity_diff_witness :
    ∃ s, run sampleCfg [[[49]]] [[[49]]] = Except.ok s ∧
      s.addedCount = 0 ∧ s.removedCount = 0 ∧ s.modifiedCount = 0 ∧ exitCode s = 0 :=
  identity_diff sampleCfg [[[49]]] [[[49]]] (List.Perm.refl _) (by decide) (by decide)

/-- C1 counterexample: the two rows have identical key hashes (their key
fields concatenate to the same bytes), so diffing the dataset against a
permutation of itself pairs the two distinct rows as aligned and reports
two modifications and exit status 1 instead of zero counts and exit 0. -/
theorem identity_diff_counterexample :
    ([collRow2, collRow1] : List Row).Perm [collRow1, collRow2] ∧
    runModified collCfg [collRow1, collRow2] [collRow2, collRow1] = 2 ∧
    runAdded collCfg [collRow1, collRow2] [collRow2, collRow1] = 0 ∧
    runRemoved collCfg [collRow1, collRow2] [collRow2, collRow1] = 0 ∧
    runExitCode collCfg [collRow1, collRow2] [collRow2, collRow1] = 1 :=
  ⟨List.Perm.swap collRow1 collRow2 [], by decide, by decide, by decide, by decide⟩

/-- C4 counterexample: input A holds two rows with the same key hash
(key fields concatenating to abc) that never occurs in input B, so both
rows' hashes are never paired; yet the second arrival overwrites the
first in cacheA, and the run emits the first row zero times, not once:
the output holds only the second row's removal and the two additions,
and the removed counter is 1 although two A-rows were never paired. -/
theorem unmatched_row_emission_counterexample :
    ¬ hashRow collCfg.keys collRow1 ∈ ([qrow1, qrow2].map (hashRow collCfg.keys)) ∧
    hashRow collCfg.keys collRow1 = hashRow collCfg.keys collRow2 ∧
    collRow1 ≠ collRow2 ∧
    runOutput collCfg [collRow1, collRow2] [qrow1, qrow2] =
      [delta collRow2 45, delta qrow1 43, delta qrow2 43] ∧
    List.filter (fun row => row == delta collRow1 45)
      (runOutput collCfg [collRow1, collRow2] [qrow1, qrow2]) = [] ∧
    runRemoved collCfg [collRow1, collRow2] [qrow1, qrow2] = 1 :=
  ⟨by decide, by decide, by decide, by decide, by decide, by decide⟩

end Csvdiff
